import Mathlib

/-!
Verification of the TLS hello extension registry and dispatch engine of
`lib/extensions.c`: the extension descriptor catalog (process-wide built-ins
plus per-session overlay), inbound/outbound dispatch, the per-session
extension state table and the resumption pack/unpack serialization.

Machine integers are modelled as `Nat`/`Int`; C return codes are `Int` with
0 = success and distinct negative constants for the error codes (only their
sign and distinctness are observable in the translated code).  Opaque
private-data pointers are modelled as `Nat`, with 0 in the role of `NULL`.
Descriptor operations (`recv`, `send`, `deinit`, `pack`, `unpack`) are
capability fields of the descriptor record, any of which may be absent;
invocations of `recv` and `deinit` are additionally recorded as events so
that dispatch-order properties ("recv is not invoked") can be stated.
-/

namespace GnuTLS

/-- Extension-private data: the opaque pointer value, as a natural number.
`0` plays the role of `NULL` in the truthiness tests of the deinit helpers. -/
abbrev Priv := Nat

/-- Byte strings: gnutls buffers are appended at the right and popped at the
left (`BUFFER_POP_NUM`), so a buffer is a `List Nat` read from the head. -/
abbrev Bytes := List Nat

/-! ### Error codes

Modelled from the spec: the numeric values of the `GNUTLS_E_*` constants come
from headers that are not in src/; only their sign and mutual distinctness
matter to the translated code, so they are fixed here as arbitrary distinct
negative integers.  `GNUTLS_E_INT_RET_0` is the `EMIT_ZERO_LENGTH` sentinel
of the spec; `GNUTLS_E_UNEXPECTED_EXTENSIONS_LENGTH` is the spec's
`MALFORMED_EXTENSION_BLOCK` kind, `GNUTLS_E_RECEIVED_ILLEGAL_EXTENSION` its
`ILLEGAL_EXTENSION_FOR_MESSAGE` kind, `GNUTLS_E_UNSOLICITED_EXTENSION` its
`UNSOLICITED_EXTENSION` kind. -/

def GNUTLS_E_SUCCESS : Int := 0
def GNUTLS_E_INT_RET_0 : Int := -1251
def GNUTLS_E_RECEIVED_ILLEGAL_EXTENSION : Int := -98
def GNUTLS_E_UNSOLICITED_EXTENSION : Int := -97
def GNUTLS_E_PARSING_ERROR : Int := -64
def GNUTLS_E_INTERNAL_ERROR : Int := -59
def GNUTLS_E_MEMORY_ERROR : Int := -25
def GNUTLS_E_ALREADY_REGISTERED : Int := -328
def GNUTLS_E_REQUESTED_DATA_NOT_AVAILABLE : Int := -56
def GNUTLS_E_INVALID_REQUEST : Int := -50
def GNUTLS_E_UNEXPECTED_EXTENSIONS_LENGTH : Int := -95

/-! ### Handshake-message flags and capacity constants -/

/-- Modelled from the spec: `gnutls_ext_flags_t` (header not in src/).  Bit 0
is the session-registration override flag; the remaining bits are the
handshake-message tags of the validity mask (§3 of the spec). -/
def GNUTLS_EXT_FLAG_OVERRIDE_INTERNAL : Nat := 1

def GNUTLS_EXT_FLAG_CLIENT_HELLO : Nat := 2

def GNUTLS_EXT_FLAG_TLS12_SERVER_HELLO : Nat := 4

def GNUTLS_EXT_FLAG_TLS13_SERVER_HELLO : Nat := 8

def GNUTLS_EXT_FLAG_EE : Nat := 16

def GNUTLS_EXT_FLAG_HRR : Nat := 32

def GNUTLS_EXT_FLAG_IGNORE_CLIENT_REQUEST : Nat := 64

def GNUTLS_EXT_FLAG_NST : Nat := 128

def GNUTLS_EXT_FLAG_CT : Nat := 256

def GNUTLS_EXT_FLAG_CR : Nat := 512

/-- `VALIDITY_MASK` as defined in lib/extensions.c (the legal validity bits
for a session registration). -/
def VALIDITY_MASK : Nat :=
  GNUTLS_EXT_FLAG_CLIENT_HELLO ||| GNUTLS_EXT_FLAG_TLS12_SERVER_HELLO |||
  GNUTLS_EXT_FLAG_TLS13_SERVER_HELLO |||
  GNUTLS_EXT_FLAG_EE ||| GNUTLS_EXT_FLAG_CT ||| GNUTLS_EXT_FLAG_CR |||
  GNUTLS_EXT_FLAG_NST ||| GNUTLS_EXT_FLAG_HRR

/-- Modelled from the spec: `MAX_EXT_TYPES` (gnutls_int.h, not in src/), the
fixed capacity of the session extension state table and of the built-in
catalog ("bounded per-session table of slots", "bounded capacity"). -/
def MAX_EXT_TYPES : Nat := 64

/-- Modelled from the spec: `GNUTLS_EXTENSION_MAX` (extensions.h, not in
src/), the largest internal id reserved for built-ins; runtime registration
allocates ids starting strictly above it. -/
def GNUTLS_EXTENSION_MAX : Nat := 19

/-- Modelled from the spec: `GNUTLS_EXTENSION_MAX_VALUE` (extensions.h, not
in src/), the largest representable internal id — the advertisement bitset
`used_exts` has one bit per internal id and the pack walk iterates
`0..GNUTLS_EXTENSION_MAX_VALUE`. -/
def GNUTLS_EXTENSION_MAX_VALUE : Nat := 31

/-- Modelled from the spec: `gnutls_ext_parse_type_t` (header not in src/);
§3 lists the parse classes ANY, APPLICATION, TLS_EARLY, TLS_LATE.  The
engine only compares a class for equality and against ANY. -/
inductive ParseType
  | any
  | application
  | tlsEarly
  | tlsLate
deriving DecidableEq

/-- Modelled from the spec: handshake role of the session
(`security_parameters.entity`, gnutls_int.h not in src/). -/
inductive Entity
  | client
  | server
deriving DecidableEq

/-! ### Extension descriptors and sessions -/

/-- An extension descriptor (`hello_ext_entry_st`).  The five behaviour
operations may each be absent.  `recv_func` maps the TLV body to a return
code; `send_func` is the pair of the payload the send would append to the
output buffer and its return code; `pack_func` maps the live private data to
the serialized body plus a return code; `unpack_func` maps the remaining
buffer to either an error code or the produced private data together with
the number of bytes consumed; `deinit_func` records only presence, its
invocations being emitted as events. -/
structure HelloExtEntry where
  name : String
  tls_id : Nat
  gid : Nat
  parse_type : ParseType
  validity : Nat
  cannot_be_overriden : Bool := false
  free_struct : Bool := false
  recv_func : Option (Bytes → Int) := none
  send_func : Option (Bytes × Int) := none
  deinit_func : Bool := false
  pack_func : Option (Priv → Bytes × Int) := none
  unpack_func : Option (Bytes → Except Int (Priv × Nat)) := none

/-- One slot of the session extension state table (`ext_data[i]` of
`session->internals`): an internal id and the two independently-lived
private-data pointers with their flags. -/
structure ExtDataSlot where
  id : Nat
  set : Bool
  priv : Priv
  resumed_set : Bool
  resumed_priv : Priv
deriving DecidableEq

/-- The slot contents of a never-touched table entry (the session structure
is zero-initialized). -/
def emptySlot : ExtDataSlot :=
  { id := 0, set := false, priv := 0, resumed_set := false, resumed_priv := 0 }

/-- The parts of `gnutls_session_t` the engine touches: the handshake role,
the session-level overlay catalog `rexts`, the advertisement bitset
`used_exts` (one bit per internal id) and the extension state table
`ext_data` (capacity `MAX_EXT_TYPES`). -/
structure Session where
  entity : Entity
  rexts : List HelloExtEntry
  used_exts : Nat
  ext_data : List ExtDataSlot

/-- A fresh session of the given role and overlay: empty advertisement
bitset and an all-empty state table. -/
def initSession (entity : Entity) (rexts : List HelloExtEntry) : Session :=
  { entity := entity, rexts := rexts, used_exts := 0,
    ext_data := List.replicate MAX_EXT_TYPES emptySlot }

/-- Observable side effects of dispatch: invocations of a descriptor's
`recv` and `deinit` operations. -/
inductive ExtEvent
  | recvCall (gid : Nat) (body : Bytes)
  | deinitCall (gid : Nat) (priv : Priv)
deriving DecidableEq

/-! ### Catalog lookup -/

/-- First entry of a catalog tier whose internal id (`gid`) matches. -/
def lookupGid : List HelloExtEntry → Nat → Option HelloExtEntry
  | [], _ => none
  | e :: es, id => if e.gid = id then some e else lookupGid es id

/-- First entry of a catalog tier whose wire id (`tls_id`) matches. -/
def lookupTls : List HelloExtEntry → Nat → Option HelloExtEntry
  | [], _ => none
  | e :: es, tls_id => if e.tls_id = tls_id then some e else lookupTls es tls_id

/-- The parse-class filter applied by `_gnutls_ext_ptr` to the entry it
found: the request must be ANY or equal the entry's class. -/
def parseTypeFilter (e : HelloExtEntry) (parse_type : ParseType) : Option HelloExtEntry :=
  if parse_type = ParseType.any ∨ e.parse_type = parse_type then some e else none

/-- `_gnutls_ext_ptr`: internal-id → descriptor lookup, session overlay
first, then the built-in catalog `extfunc`, then the parse-class filter. -/
def _gnutls_ext_ptr (extfunc : List HelloExtEntry) (session : Session) (id : Nat)
    (parse_type : ParseType) : Option HelloExtEntry :=
  match lookupGid session.rexts id with
  | some e => parseTypeFilter e parse_type
  | none =>
    match lookupGid extfunc id with
    | some e => parseTypeFilter e parse_type
    | none => none

/-- `gnutls_ext_get_name`: wire id → display name, searching only the
process-wide built-in catalog. -/
def gnutls_ext_get_name (extfunc : List HelloExtEntry) (ext : Nat) : Option String :=
  (lookupTls extfunc ext).map HelloExtEntry.name

/-- `tls_id_to_gid`: wire id → internal id, overlay first then built-ins;
0 means "unknown, skip". -/
def tls_id_to_gid (extfunc : List HelloExtEntry) (session : Session) (tls_id : Nat) : Nat :=
  match lookupTls session.rexts tls_id with
  | some e => e.gid
  | none =>
    match lookupTls extfunc tls_id with
    | some e => e.gid
    | none => 0

/-! ### Advertisement bitset -/

/-- Modelled from the spec: `_gnutls_extension_list_check` (not in src/;
§4.2 step 2).  Consults the advertisement bitset for the internal id; 0 if
the id was advertised, the `UNSOLICITED_EXTENSION` error otherwise.  That
the bitset is indexed by internal id is fixed by src/ itself
(`used_exts & (1<<i)` in `_gnutls_ext_pack`). -/
def _gnutls_extension_list_check (session : Session) (id : Nat) : Int :=
  if session.used_exts.testBit id then 0 else GNUTLS_E_UNSOLICITED_EXTENSION

/-- Modelled from the spec: `_gnutls_extension_list_add` (not in src/; §4.2
step 5 and §4.3 step 6).  With `check_dup`, a bit that is already set is
reported by returning 0 and nothing changes; otherwise the bit of the
entry's internal id is set and 1 is returned. -/
def _gnutls_extension_list_add (session : Session) (e : HelloExtEntry)
    (check_dup : Bool) : Nat × Session :=
  if check_dup ∧ session.used_exts.testBit e.gid then (0, session)
  else (1, { session with used_exts := session.used_exts ||| (1 <<< e.gid) })

/-! ### Inbound dispatch (parse) -/

/-- `hello_ext_parse`: dispatch of one inbound TLV.  Returns the C return
code, the updated session and the recorded descriptor-operation events
(in particular whether `recv` was invoked). -/
def hello_ext_parse (extfunc : List HelloExtEntry) (msg : Nat) (parse_type : ParseType)
    (session : Session) (tls_id : Nat) (data : Bytes) : Int × Session × List ExtEvent :=
  let id := tls_id_to_gid extfunc session tls_id
  if id = 0 then (0, session, [])
  else if session.entity = Entity.client ∧ _gnutls_extension_list_check session id < 0 then
    (_gnutls_extension_list_check session id, session, [])
  else
    match _gnutls_ext_ptr extfunc session id parse_type with
    | none => (0, session, [])
    | some ext =>
      match ext.recv_func with
      | none => (0, session, [])
      | some recv =>
        if ext.validity &&& msg = 0 then
          (GNUTLS_E_RECEIVED_ILLEGAL_EXTENSION, session, [])
        else
          let addStep : Nat × Session :=
            if session.entity = Entity.server then
              _gnutls_extension_list_add session ext true
            else (1, session)
          if addStep.1 = 0 then (GNUTLS_E_RECEIVED_ILLEGAL_EXTENSION, session, [])
          else
            let r := recv data
            (if r < 0 then r else 0, addStep.2, [ExtEvent.recvCall id data])

/-- Fuel-indexed worker for `extvDecode` (structural recursion so that the
definition evaluates by kernel reduction). -/
def extvDecodeF : Nat → Bytes → Option (List (Nat × Bytes))
  | _, [] => some []
  | fuel + 1, t1 :: t2 :: l1 :: l2 :: rest =>
    let len := 256 * l1 + l2
    if rest.length < len then none
    else
      match extvDecodeF fuel (rest.drop len) with
      | none => none
      | some tlvs => some ((256 * t1 + t2, rest.take len) :: tlvs)
  | _ + 1, _ => none
  | 0, _ => none

/-- Modelled from the spec: the TLV framing of `_gnutls_extv_parse`
(lib/extv.c, not in src/).  §6: the block is a sequence of records
`wire_id: u16 big-endian | length: u16 big-endian | body`; a record
extending past the block is a hard framing error (`none` here, mapped to
the `MALFORMED_EXTENSION_BLOCK` kind by the caller). -/
def extvDecode (b : Bytes) : Option (List (Nat × Bytes)) :=
  extvDecodeF b.length b

/-- Dispatch loop over the decoded TLVs: the first negative return aborts
the walk and is propagated. -/
def parse_tlvs (extfunc : List HelloExtEntry) (msg : Nat) (parse_type : ParseType) :
    List (Nat × Bytes) → Session → Int × Session × List ExtEvent
  | [], s => (0, s, [])
  | (t, body) :: rest, s =>
    let step := hello_ext_parse extfunc msg parse_type s t body
    if step.1 < 0 then step
    else
      let next := parse_tlvs extfunc msg parse_type rest step.2.1
      (next.1, next.2.1, step.2.2 ++ next.2.2)

/-- `_gnutls_parse_extensions`: frame the block, then dispatch each TLV. -/
def _gnutls_parse_extensions (extfunc : List HelloExtEntry) (msg : Nat)
    (parse_type : ParseType) (session : Session) (data : Bytes) :
    Int × Session × List ExtEvent :=
  match extvDecode data with
  | none => (GNUTLS_E_UNEXPECTED_EXTENSIONS_LENGTH, session, [])
  | some tlvs => parse_tlvs extfunc msg parse_type tlvs session

/-! ### Outbound dispatch (emit) -/

/-- `hello_ext_send`: the per-descriptor send callback.  Returns the C
return code (the send's own return on the full path, 0 on the skip paths),
the payload the send appended and the updated session (the client marks the
id as advertised when the send appended payload or returned the
`EMIT_ZERO_LENGTH` sentinel). -/
def hello_ext_send (msg : Nat) (parse_type : ParseType) (p : HelloExtEntry)
    (session : Session) : Int × Bytes × Session :=
  match p.send_func with
  | none => (0, [], session)
  | some sendResult =>
    if parse_type ≠ ParseType.any ∧ p.parse_type ≠ parse_type then (0, [], session)
    else if msg &&& p.validity = 0 then (0, [], session)
    else
      let chk := _gnutls_extension_list_check session p.gid
      if session.entity = Entity.server ∧ chk < 0 then (0, [], session)
      else if session.entity ≠ Entity.server ∧ chk = 0 then (0, [], session)
      else
        let ret := sendResult.2
        if ret < 0 ∧ ret ≠ GNUTLS_E_INT_RET_0 then (ret, sendResult.1, session)
        else
          let appended := sendResult.1.length
          if (appended > 0 ∨ ret = GNUTLS_E_INT_RET_0) ∧ session.entity = Entity.client then
            (ret, sendResult.1, (_gnutls_extension_list_add session p false).2)
          else (ret, sendResult.1, session)

/-- Modelled from the spec: `_gnutls_extv_append` (lib/extv.c, not in
src/).  §4.3 step 5: emit the 16-bit wire id and a length placeholder, run
the send callback and back-patch the length; a callback that appended
nothing and did not return the `EMIT_ZERO_LENGTH` sentinel is a "skip" (the
spec distinguishes the sentinel "from errors and from skip") and the four
header bytes are removed again, so no TLV is produced.  A negative
non-sentinel return aborts.  The produced TLV is returned as
`(wire_id, payload)`; `none` means the descriptor produced no TLV. -/
def _gnutls_extv_append (msg : Nat) (parse_type : ParseType) (p : HelloExtEntry)
    (session : Session) : Except Int (Option (Nat × Bytes) × Session) :=
  let step := hello_ext_send msg parse_type p session
  if step.1 < 0 ∧ step.1 ≠ GNUTLS_E_INT_RET_0 then Except.error step.1
  else if step.2.1.length > 0 ∨ step.1 = GNUTLS_E_INT_RET_0 then
    Except.ok (some (p.tls_id, step.2.1), step.2.2)
  else Except.ok (none, step.2.2)

/-- The walk of `_gnutls_gen_extensions` over one list of descriptors,
collecting the produced TLVs in order. -/
def gen_ext_loop (msg : Nat) (parse_type : ParseType) :
    List HelloExtEntry → Session → Except Int (List (Nat × Bytes) × Session)
  | [], s => Except.ok ([], s)
  | p :: ps, s =>
    match _gnutls_extv_append msg parse_type p s with
    | Except.error e => Except.error e
    | Except.ok (opt, s1) =>
      match gen_ext_loop msg parse_type ps s1 with
      | Except.error e => Except.error e
      | Except.ok (tlvs, s2) =>
        Except.ok ((match opt with | some tlv => tlv :: tlvs | none => tlvs), s2)

/-- `_gnutls_gen_extensions`: emit the outbound extension block — the
session overlay list first, then the built-in list, each in registration
order.  The result is the produced TLV sequence (the byte block is its
u16-framed encoding, back-patched with the outer length). -/
def _gnutls_gen_extensions (extfunc : List HelloExtEntry) (msg : Nat)
    (parse_type : ParseType) (session : Session) :
    Except Int (List (Nat × Bytes) × Session) :=
  gen_ext_loop msg parse_type (session.rexts ++ extfunc) session

/-- The TLV list of a successful emit, `none` when emission failed. -/
def genWireTLVs (extfunc : List HelloExtEntry) (msg : Nat) (parse_type : ParseType)
    (session : Session) : Option (List (Nat × Bytes)) :=
  match _gnutls_gen_extensions extfunc msg parse_type session with
  | Except.ok (tlvs, _) => some tlvs
  | Except.error _ => none

/-! ### Session extension state table -/

/-- `unset_ext_data`: clear a slot's live state, invoking the descriptor's
`deinit` when the slot was live, the descriptor was found, it has a
`deinit` op and the pointer is non-NULL. -/
def unset_ext_data (ext : Option HelloExtEntry) (slot : ExtDataSlot) :
    ExtDataSlot × List ExtEvent :=
  if slot.set = false then (slot, [])
  else
    ({ slot with set := false },
     match ext with
     | some e => if e.deinit_func ∧ slot.priv ≠ 0 then [ExtEvent.deinitCall e.gid slot.priv] else []
     | none => [])

/-- `unset_resumed_ext_data`: the resumed-side twin of `unset_ext_data`. -/
def unset_resumed_ext_data (ext : Option HelloExtEntry) (slot : ExtDataSlot) :
    ExtDataSlot × List ExtEvent :=
  if slot.resumed_set = false then (slot, [])
  else
    ({ slot with resumed_set := false },
     match ext with
     | some e =>
       if e.deinit_func ∧ slot.resumed_priv ≠ 0 then
         [ExtEvent.deinitCall e.gid slot.resumed_priv]
       else []
     | none => [])

/-- The slot-selection scan of `_gnutls_ext_set_session_data`: the first
slot whose id matches or which has neither flag set receives the data (the
old live value of that slot being deinitialized first); `none` when the
scan falls off the end of the table. -/
def set_data_loop (ext : Option HelloExtEntry) (id : Nat) (data : Priv) :
    List ExtDataSlot → Option (List ExtDataSlot × List ExtEvent)
  | [] => none
  | slot :: rest =>
    if slot.id = id ∨ (slot.set = false ∧ slot.resumed_set = false) then
      let cleared := if slot.set then unset_ext_data ext slot else (slot, [])
      some ({ cleared.1 with id := id, priv := data, set := true } :: rest, cleared.2)
    else
      match set_data_loop ext id data rest with
      | none => none
      | some (rest1, evs) => some (slot :: rest1, evs)

/-- The slot-selection scan of `_gnutls_ext_set_resumed_session_data`
(resumed-side twin of `set_data_loop`). -/
def set_resumed_data_loop (ext : Option HelloExtEntry) (id : Nat) (data : Priv) :
    List ExtDataSlot → Option (List ExtDataSlot × List ExtEvent)
  | [] => none
  | slot :: rest =>
    if slot.id = id ∨ (slot.resumed_set = false ∧ slot.set = false) then
      let cleared := if slot.resumed_set then unset_resumed_ext_data ext slot else (slot, [])
      some ({ cleared.1 with id := id, resumed_priv := data, resumed_set := true } :: rest,
            cleared.2)
    else
      match set_resumed_data_loop ext id data rest with
      | none => none
      | some (rest1, evs) => some (slot :: rest1, evs)

/-- `_gnutls_ext_set_session_data`: store live private data for an internal
id.  The C function is `void`: when the scan finds no slot (the table is
full) it silently returns and nothing is stored. -/
def _gnutls_ext_set_session_data (extfunc : List HelloExtEntry) (session : Session)
    (id : Nat) (data : Priv) : Session × List ExtEvent :=
  let ext := _gnutls_ext_ptr extfunc session id ParseType.any
  match set_data_loop ext id data session.ext_data with
  | none => (session, [])
  | some (tbl, evs) => ({ session with ext_data := tbl }, evs)

/-- `_gnutls_ext_set_resumed_session_data`: store resumed private data for
an internal id; like the live variant, silently a no-op on a full table. -/
def _gnutls_ext_set_resumed_session_data (extfunc : List HelloExtEntry) (session : Session)
    (id : Nat) (data : Priv) : Session × List ExtEvent :=
  let ext := _gnutls_ext_ptr extfunc session id ParseType.any
  match set_resumed_data_loop ext id data session.ext_data with
  | none => (session, [])
  | some (tbl, evs) => ({ session with ext_data := tbl }, evs)

/-- `_gnutls_ext_get_session_data`: first slot with the live flag set and a
matching id. -/
def _gnutls_ext_get_session_data (session : Session) (id : Nat) : Except Int Priv :=
  match session.ext_data.find? (fun s => s.set && s.id == id) with
  | some slot => Except.ok slot.priv
  | none => Except.error GNUTLS_E_REQUESTED_DATA_NOT_AVAILABLE

/-- `_gnutls_ext_get_resumed_session_data`: first slot with the resumed
flag set and a matching id. -/
def _gnutls_ext_get_resumed_session_data (session : Session) (id : Nat) : Except Int Priv :=
  match session.ext_data.find? (fun s => s.resumed_set && s.id == id) with
  | some slot => Except.ok slot.resumed_priv
  | none => Except.error GNUTLS_E_INVALID_REQUEST

/-- The scan of `_gnutls_ext_unset_session_data`: clear the live state of
the first slot whose id matches; nothing happens when no id matches. -/
def unset_data_loop (ext : Option HelloExtEntry) (id : Nat) :
    List ExtDataSlot → List ExtDataSlot × List ExtEvent
  | [] => ([], [])
  | slot :: rest =>
    if slot.id = id then
      let cleared := unset_ext_data ext slot
      (cleared.1 :: rest, cleared.2)
    else
      let next := unset_data_loop ext id rest
      (slot :: next.1, next.2)

/-- `_gnutls_ext_unset_session_data`. -/
def _gnutls_ext_unset_session_data (extfunc : List HelloExtEntry) (session : Session)
    (id : Nat) : Session × List ExtEvent :=
  let ext := _gnutls_ext_ptr extfunc session id ParseType.any
  let next := unset_data_loop ext id session.ext_data
  ({ session with ext_data := next.1 }, next.2)

/-! ### Resumption serialization (pack / unpack) -/

/-- Modelled from the spec: the 32-bit big-endian number encoding of
`BUFFER_APPEND_NUM` / `_gnutls_write_uint32` (not in src/; §6 fixes the
blob fields as u32 big-endian). -/
def u32be (n : Nat) : Bytes :=
  [n / 2 ^ 24 % 256, n / 2 ^ 16 % 256, n / 2 ^ 8 % 256, n % 256]

/-- Modelled from the spec: `BUFFER_POP_NUM` (not in src/): pop a 32-bit
big-endian number from the front of the buffer; a short buffer is a
structural error of the blob (`PARSING_ERROR` kind). -/
def popU32 : Bytes → Except Int (Nat × Bytes)
  | a :: b :: c :: d :: rest => Except.ok (((a * 256 + b) * 256 + c) * 256 + d, rest)
  | _ => Except.error GNUTLS_E_PARSING_ERROR

/-- `pack_extension`: serialize one descriptor's live data.  When the
session holds live data for the id and the descriptor has a `pack` op, the
record `gid: u32 | length: u32 | body` is emitted (the length back-patched
after the pack ran) and the record counts (return 1); otherwise nothing is
emitted (return 0).  A negative `pack` return aborts. -/
def pack_extension (session : Session) (extp : HelloExtEntry) : Except Int (Bytes × Nat) :=
  match _gnutls_ext_get_session_data session extp.gid with
  | Except.error _ => Except.ok ([], 0)
  | Except.ok data =>
    match extp.pack_func with
    | none => Except.ok ([], 0)
    | some pack =>
      let body := (pack data).1
      if (pack data).2 < 0 then Except.error (pack data).2
      else Except.ok (u32be extp.gid ++ u32be body.length ++ body, 1)

/-- The id walk of `_gnutls_ext_pack` over a list of internal ids: ids set
in the advertisement bitset whose descriptor is found are packed; the
concatenated records and the entry count are returned. -/
def pack_ids (extfunc : List HelloExtEntry) (session : Session) :
    List Nat → Except Int (Bytes × Nat)
  | [] => Except.ok ([], 0)
  | i :: is =>
    if session.used_exts.testBit i then
      match _gnutls_ext_ptr extfunc session i ParseType.any with
      | none => pack_ids extfunc session is
      | some ext =>
        match pack_extension session ext with
        | Except.error e => Except.error e
        | Except.ok (bs, r) =>
          match pack_ids extfunc session is with
          | Except.error e => Except.error e
          | Except.ok (rest, n) => Except.ok (bs ++ rest, r + n)
    else pack_ids extfunc session is

/-- `_gnutls_ext_pack`: walk internal ids `0..GNUTLS_EXTENSION_MAX_VALUE`,
pack each advertised id, and prefix the whole run with the 32-bit entry
count (appended as a placeholder and back-patched at the end). -/
def _gnutls_ext_pack (extfunc : List HelloExtEntry) (session : Session) : Except Int Bytes :=
  match pack_ids extfunc session (List.range (GNUTLS_EXTENSION_MAX_VALUE + 1)) with
  | Except.error e => Except.error e
  | Except.ok (bs, n) => Except.ok (u32be n ++ bs)

/-- The record loop of `_gnutls_ext_unpack`: read `n` records, look up each
descriptor (absent descriptor or absent `unpack` is a `PARSING_ERROR`),
run `unpack`, verify it consumed exactly the declared length, and install
the produced value via `_gnutls_ext_set_resumed_session_data`. -/
def unpack_loop (extfunc : List HelloExtEntry) :
    Nat → Session → Bytes → Except Int (Session × Bytes)
  | 0, session, buf => Except.ok (session, buf)
  | n + 1, session, buf =>
    match popU32 buf with
    | Except.error e => Except.error e
    | Except.ok (id, buf1) =>
      match popU32 buf1 with
      | Except.error e => Except.error e
      | Except.ok (size_for_id, buf2) =>
        match _gnutls_ext_ptr extfunc session id ParseType.any with
        | none => Except.error GNUTLS_E_PARSING_ERROR
        | some ext =>
          match ext.unpack_func with
          | none => Except.error GNUTLS_E_PARSING_ERROR
          | some unpack =>
            match unpack buf2 with
            | Except.error e => Except.error e
            | Except.ok (data, consumed) =>
              if consumed ≠ size_for_id then Except.error GNUTLS_E_PARSING_ERROR
              else
                unpack_loop extfunc n
                  (_gnutls_ext_set_resumed_session_data extfunc session id data).1
                  (buf2.drop consumed)

/-- `_gnutls_ext_unpack`: read the 32-bit record count, then the records.
Leftover bytes after the last record are not an error (the caller owns
them). -/
def _gnutls_ext_unpack (extfunc : List HelloExtEntry) (session : Session)
    (packed : Bytes) : Except Int Session :=
  match popU32 packed with
  | Except.error e => Except.error e
  | Except.ok (max_exts, rest) =>
    match unpack_loop extfunc max_exts session rest with
    | Except.error e => Except.error e
    | Except.ok (s, _) => Except.ok s

/-- A fresh session into which a resumption blob is unpacked: same role and
same catalog (overlay included), empty bitset and table. -/
def freshSession (session : Session) : Session :=
  initSession session.entity session.rexts

/-! ### Registration -/

/-- `ext_register`: append a descriptor to the process-wide catalog, which
fails with `INTERNAL_ERROR` when the built-in table is full. -/
def ext_register (extfunc : List HelloExtEntry) (mod : HelloExtEntry) :
    Except Int (List HelloExtEntry) :=
  if MAX_EXT_TYPES - 1 ≤ extfunc.length then Except.error GNUTLS_E_INTERNAL_ERROR
  else Except.ok (extfunc ++ [mod])

/-- The internal-id fold of the registration scans: each entry whose id is
at least the candidate bumps the candidate to one above it. -/
def gid_scan : List HelloExtEntry → Nat → Nat
  | [], gid => gid
  | e :: es, gid => gid_scan es (if gid ≤ e.gid then e.gid + 1 else gid)

/-- The built-in scan of `gnutls_session_ext_register`: walking the
built-in catalog, a wire-id collision either fails with
`ALREADY_REGISTERED` (no override flag, or the built-in is
non-overridable) or stops the scan (`break`), so entries after the
collision do not influence the candidate id. -/
def session_reg_scan (tls_id : Nat) (flags : Nat) :
    List HelloExtEntry → Nat → Except Int Nat
  | [], gid => Except.ok gid
  | e :: es, gid =>
    if e.tls_id = tls_id then
      if flags &&& GNUTLS_EXT_FLAG_OVERRIDE_INTERNAL = 0 then
        Except.error GNUTLS_E_ALREADY_REGISTERED
      else if e.cannot_be_overriden then Except.error GNUTLS_E_ALREADY_REGISTERED
      else Except.ok gid
    else session_reg_scan tls_id flags es (if gid ≤ e.gid then e.gid + 1 else gid)

/-- `gnutls_ext_register`: process-wide registration.  Fails with
`ALREADY_REGISTERED` on a wire-id collision with the built-in catalog,
allocates the internal id one above everything in that catalog (starting at
`GNUTLS_EXTENSION_MAX+1`), fails with `MEMORY_ERROR` when the id space is
exhausted, and appends the descriptor with the fixed default validity. -/
def gnutls_ext_register (extfunc : List HelloExtEntry) (name : String) (id : Nat)
    (parse_type : ParseType) (recv_func : Option (Bytes → Int))
    (send_func : Option (Bytes × Int)) (deinit_func : Bool)
    (pack_func : Option (Priv → Bytes × Int))
    (unpack_func : Option (Bytes → Except Int (Priv × Nat))) :
    Except Int (List HelloExtEntry) :=
  if extfunc.any (fun e => e.tls_id = id) then Except.error GNUTLS_E_ALREADY_REGISTERED
  else
    let gid := gid_scan extfunc (GNUTLS_EXTENSION_MAX + 1)
    if GNUTLS_EXTENSION_MAX_VALUE < gid then Except.error GNUTLS_E_MEMORY_ERROR
    else
      ext_register extfunc
        { name := name, tls_id := id, gid := gid, parse_type := parse_type,
          validity := GNUTLS_EXT_FLAG_CLIENT_HELLO ||| GNUTLS_EXT_FLAG_TLS12_SERVER_HELLO |||
            GNUTLS_EXT_FLAG_EE,
          free_struct := true, recv_func := recv_func, send_func := send_func,
          deinit_func := deinit_func, pack_func := pack_func, unpack_func := unpack_func }

/-- `gnutls_session_ext_register`: session-level registration.  The
built-in catalog is scanned with the `break`-on-override behaviour of
`session_reg_scan`; a wire-id collision inside the overlay always fails;
the candidate id is then raised above every overlay id; exhaustion of the
id space fails with `MEMORY_ERROR`; when no legal validity bit is supplied
the default validity is applied, otherwise `flags` is stored as the
validity word. -/
def gnutls_session_ext_register (extfunc : List HelloExtEntry) (session : Session)
    (name : String) (id : Nat) (parse_type : ParseType)
    (recv_func : Option (Bytes → Int)) (send_func : Option (Bytes × Int))
    (deinit_func : Bool) (pack_func : Option (Priv → Bytes × Int))
    (unpack_func : Option (Bytes → Except Int (Priv × Nat))) (flags : Nat) :
    Except Int Session :=
  match session_reg_scan id flags extfunc (GNUTLS_EXTENSION_MAX + 1) with
  | Except.error e => Except.error e
  | Except.ok gid0 =>
    if session.rexts.any (fun e => e.tls_id = id) then
      Except.error GNUTLS_E_ALREADY_REGISTERED
    else
      let gid := gid_scan session.rexts gid0
      if GNUTLS_EXTENSION_MAX_VALUE < gid then Except.error GNUTLS_E_MEMORY_ERROR
      else
        Except.ok { session with rexts := session.rexts ++
          [{ name := name, tls_id := id, gid := gid, parse_type := parse_type,
             validity := if flags &&& VALIDITY_MASK = 0 then
               GNUTLS_EXT_FLAG_CLIENT_HELLO ||| GNUTLS_EXT_FLAG_TLS12_SERVER_HELLO |||
                 GNUTLS_EXT_FLAG_EE
               else flags,
             free_struct := true, recv_func := recv_func, send_func := send_func,
             deinit_func := deinit_func, pack_func := pack_func,
             unpack_func := unpack_func }] }

/-! ### Specification-side definitions

The following definitions follow the words of the specification (or of a
claim derived from it), to be compared with the code-side definitions
above. -/

/-- The emission-order walk with the produced-output condition: wire ids of
`overlay ++ built-ins` in order, filtered by send-present, parse class,
validity mask and the advertisement-bitset rule, keeping only descriptors
whose send appended payload or returned the `EMIT_ZERO_LENGTH` sentinel
(the client marking such ids as advertised as it walks). -/
def emitWalk (msg : Nat) (parse_type : ParseType) (entity : Entity) :
    List HelloExtEntry → Nat → List Nat
  | [], _ => []
  | p :: ps, bits =>
    match p.send_func with
    | none => emitWalk msg parse_type entity ps bits
    | some sr =>
      if parse_type ≠ ParseType.any ∧ p.parse_type ≠ parse_type then
        emitWalk msg parse_type entity ps bits
      else if msg &&& p.validity = 0 then emitWalk msg parse_type entity ps bits
      else if entity = Entity.server ∧ ¬ bits.testBit p.gid then
        emitWalk msg parse_type entity ps bits
      else if entity = Entity.client ∧ bits.testBit p.gid then
        emitWalk msg parse_type entity ps bits
      else if sr.1.length > 0 ∨ sr.2 = GNUTLS_E_INT_RET_0 then
        p.tls_id :: emitWalk msg parse_type entity ps
          (if entity = Entity.client then bits ||| (1 <<< p.gid) else bits)
      else emitWalk msg parse_type entity ps bits

/-- The emitted-wire-id sequence exactly as claim C5 states it: the walk of
`overlay ++ built-ins` filtered by send-present, parse class, validity mask
and the advertisement-bitset rule only (no condition on the payload the
send produces). -/
def claimEmitSeq (msg : Nat) (parse_type : ParseType) (entity : Entity) :
    List HelloExtEntry → Nat → List Nat
  | [], _ => []
  | p :: ps, bits =>
    if p.send_func.isNone then claimEmitSeq msg parse_type entity ps bits
    else if parse_type ≠ ParseType.any ∧ p.parse_type ≠ parse_type then
      claimEmitSeq msg parse_type entity ps bits
    else if msg &&& p.validity = 0 then claimEmitSeq msg parse_type entity ps bits
    else if entity = Entity.server ∧ ¬ bits.testBit p.gid then
      claimEmitSeq msg parse_type entity ps bits
    else if entity = Entity.client ∧ bits.testBit p.gid then
      claimEmitSeq msg parse_type entity ps bits
    else
      p.tls_id :: claimEmitSeq msg parse_type entity ps
        (if entity = Entity.client then bits ||| (1 <<< p.gid) else bits)

/-- The slot-selection predicate of the state-table set operations: the
slot's id matches or the slot has neither flag set. -/
def hit_slot (id : Nat) (s : ExtDataSlot) : Bool :=
  s.id == id || (!s.set && !s.resumed_set)

/-- `set_live` exactly as claim C7 states it: store into the slot whose id
equals `id` (wherever it is), else into the first slot with neither flag
set, deinitializing a previously held live value of the chosen slot first;
when neither slot exists the table is full and the operation fails with
`INTERNAL_ERROR`. -/
def spec_set_live (extfunc : List HelloExtEntry) (session : Session) (id : Nat)
    (data : Priv) : Except Int (Session × List ExtEvent) :=
  let ext := _gnutls_ext_ptr extfunc session id ParseType.any
  let install : Nat → Session × List ExtEvent := fun j =>
    let slot := session.ext_data.getD j emptySlot
    let cleared := if slot.set then unset_ext_data ext slot else (slot, [])
    ({ session with ext_data :=
        session.ext_data.set j { cleared.1 with id := id, priv := data, set := true } },
     cleared.2)
  match session.ext_data.findIdx? (fun s => s.id == id) with
  | some j => Except.ok (install j)
  | none =>
    match session.ext_data.findIdx? (fun s => !s.set && !s.resumed_set) with
    | some j => Except.ok (install j)
    | none => Except.error GNUTLS_E_INTERNAL_ERROR

/-- State-table operations for invariant claims: the set operations of the
live and the resumed side. -/
inductive TblOp
  | setL (id : Nat) (data : Priv)
  | setR (id : Nat) (data : Priv)

/-- Apply one state-table operation to a session. -/
def applyOp (extfunc : List HelloExtEntry) (s : Session) : TblOp → Session
  | TblOp.setL id d => (_gnutls_ext_set_session_data extfunc s id d).1
  | TblOp.setR id d => (_gnutls_ext_set_resumed_session_data extfunc s id d).1

/-- Apply a sequence of state-table operations, left to right. -/
def applyOps (extfunc : List HelloExtEntry) : List TblOp → Session → Session
  | [], s => s
  | op :: ops, s => applyOps extfunc ops (applyOp extfunc s op)

/-- A slot that holds state: its live or its resumed flag is set. -/
def flaggedSlot (s : ExtDataSlot) : Bool :=
  s.set || s.resumed_set

/-- Number of slots of the table that hold state for the given internal
id. -/
def countIdFlagged (tbl : List ExtDataSlot) (id : Nat) : Nat :=
  (tbl.filter (fun s => flaggedSlot s && s.id == id)).length

/-- The selection predicate of the pack walk as implemented: the id is
advertised, its descriptor is found, the descriptor has a `pack` op and the
session holds live data for the id. -/
def packSelect (extfunc : List HelloExtEntry) (session : Session) (i : Nat) : Bool :=
  session.used_exts.testBit i &&
    (match _gnutls_ext_ptr extfunc session i ParseType.any with
     | some e =>
       e.pack_func.isSome &&
         (match _gnutls_ext_get_session_data session i with
          | Except.ok _ => true
          | Except.error _ => false)
     | none => false)

/-- The ids the pack walk serializes, in ascending internal-id order. -/
def packIds (extfunc : List HelloExtEntry) (session : Session) : List Nat :=
  (List.range (GNUTLS_EXTENSION_MAX_VALUE + 1)).filter (packSelect extfunc session)

/-- The ids claim C8 says the pack walk serializes: advertised ids whose
descriptor is found and has a `pack` op (no condition on live data being
present). -/
def claimPackIdsC8 (extfunc : List HelloExtEntry) (session : Session) : List Nat :=
  (List.range (GNUTLS_EXTENSION_MAX_VALUE + 1)).filter fun i =>
    session.used_exts.testBit i &&
      (match _gnutls_ext_ptr extfunc session i ParseType.any with
       | some e => e.pack_func.isSome
       | none => false)

/-- The body bytes the descriptor's `pack` writes for an id (empty when the
id is not packable). -/
def packBody (extfunc : List HelloExtEntry) (session : Session) (i : Nat) : Bytes :=
  match _gnutls_ext_ptr extfunc session i ParseType.any,
        _gnutls_ext_get_session_data session i with
  | some e, Except.ok d =>
    match e.pack_func with
    | some pack => (pack d).1
    | none => []
  | _, _ => []

/-- The return code the descriptor's `pack` yields for an id (0 when the id
is not packable). -/
def packRet (extfunc : List HelloExtEntry) (session : Session) (i : Nat) : Int :=
  match _gnutls_ext_ptr extfunc session i ParseType.any,
        _gnutls_ext_get_session_data session i with
  | some e, Except.ok d =>
    match e.pack_func with
    | some pack => (pack d).2
    | none => 0
  | _, _ => 0

/-- One record of the resumption blob:
`internal_id: u32 | length: u32 | body`. -/
def packRecord (extfunc : List HelloExtEntry) (session : Session) (i : Nat) : Bytes :=
  u32be i ++ u32be (packBody extfunc session i).length ++ packBody extfunc session i

/-- A state-table slot holding only resumed data, as `unpack` installs it
into a fresh slot. -/
def mkResumedSlot (id : Nat) (data : Priv) : ExtDataSlot :=
  { id := id, set := false, priv := 0, resumed_set := true, resumed_priv := data }

/-- A state-table slot holding only live data. -/
def mkLiveSlot (id : Nat) (data : Priv) : ExtDataSlot :=
  { id := id, set := true, priv := data, resumed_set := false, resumed_priv := 0 }

/-- The internal id of the last overlay entry after a registration, for
stating id-allocation facts. -/
def lastOverlayGid (r : Except Int Session) : Option Nat :=
  match r with
  | Except.ok s => s.rexts.getLast?.map HelloExtEntry.gid
  | Except.error _ => none

/-! ### Concrete fixtures for witnesses and counterexamples -/

/-- A supported_versions-like built-in: wire id 43, valid in client hello
and TLS 1.3 server hello, with a receive op. -/
def tExtSV : HelloExtEntry :=
  { name := "supported_versions", tls_id := 43, gid := 3, parse_type := ParseType.any,
    validity := GNUTLS_EXT_FLAG_CLIENT_HELLO ||| GNUTLS_EXT_FLAG_TLS13_SERVER_HELLO,
    recv_func := some (fun _ => 0) }

/-- A built-in valid only in the client hello, with a receive op. -/
def tExtCHonly : HelloExtEntry :=
  { name := "ch_only", tls_id := 21, gid := 5, parse_type := ParseType.any,
    validity := GNUTLS_EXT_FLAG_CLIENT_HELLO,
    recv_func := some (fun _ => 0) }

/-- A session overlay descriptor at wire id 16 (payload byte 1 on send). -/
def tOv16 : HelloExtEntry :=
  { name := "ov16", tls_id := 16, gid := 20, parse_type := ParseType.any,
    validity := GNUTLS_EXT_FLAG_CLIENT_HELLO, send_func := some ([1], 1) }

/-- A built-in descriptor at the same wire id 16 (payload byte 2 on send). -/
def tBi16 : HelloExtEntry :=
  { name := "bi16", tls_id := 16, gid := 3, parse_type := ParseType.any,
    validity := GNUTLS_EXT_FLAG_CLIENT_HELLO, send_func := some ([2], 1) }

/-- A built-in whose send appends nothing and returns 0 (the "skip" return,
not the `EMIT_ZERO_LENGTH` sentinel). -/
def tBiEmpty : HelloExtEntry :=
  { name := "empty_send", tls_id := 21, gid := 4, parse_type := ParseType.any,
    validity := GNUTLS_EXT_FLAG_CLIENT_HELLO, send_func := some ([], 0) }

/-- A descriptor with a pack op but no unpack op (internal id 1). -/
def tPackNoUnpack : HelloExtEntry :=
  { name := "pack_no_unpack", tls_id := 100, gid := 1, parse_type := ParseType.any,
    validity := GNUTLS_EXT_FLAG_CLIENT_HELLO,
    pack_func := some (fun _ => ([], 0)) }

/-- A descriptor packing its private datum as a single byte and unpacking
one byte back (internal id 1). -/
def tDescA : HelloExtEntry :=
  { name := "descA", tls_id := 100, gid := 1, parse_type := ParseType.any,
    validity := GNUTLS_EXT_FLAG_CLIENT_HELLO,
    pack_func := some (fun p => ([p], 0)),
    unpack_func := some (fun b =>
      match b with
      | x :: _ => Except.ok (x, 1)
      | [] => Except.error (-1)) }

/-- A descriptor packing zero bytes and unpacking the fixed datum 9
(internal id 2). -/
def tDescB : HelloExtEntry :=
  { name := "descB", tls_id := 101, gid := 2, parse_type := ParseType.any,
    validity := GNUTLS_EXT_FLAG_CLIENT_HELLO,
    pack_func := some (fun _ => ([], 0)),
    unpack_func := some (fun _ => Except.ok (9, 0)) }

/-- A plain built-in at wire id 1, internal id 1, overridable. -/
def tB1 : HelloExtEntry :=
  { name := "b1", tls_id := 1, gid := 1, parse_type := ParseType.any,
    validity := GNUTLS_EXT_FLAG_CLIENT_HELLO }

/-- A runtime-registered built-in at wire id 100 holding internal id 20. -/
def tR1 : HelloExtEntry :=
  { name := "r1", tls_id := 100, gid := 20, parse_type := ParseType.any,
    validity := GNUTLS_EXT_FLAG_CLIENT_HELLO }

/-- An overlay-only descriptor at wire id 100 with a receive op. -/
def tOvX : HelloExtEntry :=
  { name := "ovx", tls_id := 100, gid := 20, parse_type := ParseType.any,
    validity := GNUTLS_EXT_FLAG_CLIENT_HELLO ||| GNUTLS_EXT_FLAG_TLS13_SERVER_HELLO,
    recv_func := some (fun _ => 0) }

/-- A state table whose first slot holds live data for one id, the rest
empty. -/
def liveTable (id : Nat) (data : Priv) : List ExtDataSlot :=
  mkLiveSlot id data :: List.replicate (MAX_EXT_TYPES - 1) emptySlot

/-- A state table holding live data for two ids. -/
def liveTable2 (id1 : Nat) (d1 : Priv) (id2 : Nat) (d2 : Priv) : List ExtDataSlot :=
  mkLiveSlot id1 d1 :: mkLiveSlot id2 d2 :: List.replicate (MAX_EXT_TYPES - 2) emptySlot

/-- Client session advertising internal id 1 with live datum 5 and no
overlay. -/
def tSessPack1 : Session :=
  { entity := Entity.client, rexts := [], used_exts := 2, ext_data := liveTable 1 5 }

/-- Client session advertising internal ids 1 and 2 with live data 42 and
7. -/
def tSessPack2 : Session :=
  { entity := Entity.client, rexts := [], used_exts := 6, ext_data := liveTable2 1 42 2 7 }

/-- Client session advertising internal id 1 with no live data installed. -/
def tSessAdvNoData : Session :=
  { entity := Entity.client, rexts := [], used_exts := 2,
    ext_data := List.replicate MAX_EXT_TYPES emptySlot }

/-- Index of the first slot the set-operation scan selects: the first slot
whose id matches or which has neither flag set. -/
def hitIdx (id : Nat) : List ExtDataSlot → Option Nat
  | [] => none
  | s :: rest => if hit_slot id s then some 0 else (hitIdx id rest).map (· + 1)

/-- View of the first two slots (id, live flag, live datum) of a
set-operation result, for comparing the code against the claim's
description. -/
def liveSlotView (r : Except Int (Session × List ExtEvent)) :
    Option (List (Nat × Bool × Priv)) :=
  match r with
  | Except.ok (s, _) => some ((s.ext_data.take 2).map fun sl => (sl.id, sl.set, sl.priv))
  | Except.error _ => none

/-- The state-table contents after `set_live(5,1); set_live(7,2);
unset_live(5)`: slot 0 holds id 5 unflagged, slot 1 holds id 7 live. -/
def c7sessPre : Session :=
  let s0 := initSession Entity.client []
  let s1 := (_gnutls_ext_set_session_data [] s0 5 1).1
  let s2 := (_gnutls_ext_set_session_data [] s1 7 2).1
  (_gnutls_ext_unset_session_data [] s2 5).1

/-- The session after the operation sequence `set_live(5,1); set_live(7,2);
unset_live(5); set_live(7,3)`. -/
def c6sess : Session :=
  (_gnutls_ext_set_session_data [] c7sessPre 7 3).1

/-- A built-in already holding the largest representable internal id. -/
def tGid31 : HelloExtEntry :=
  { name := "g31", tls_id := 7, gid := 31, parse_type := ParseType.any,
    validity := GNUTLS_EXT_FLAG_CLIENT_HELLO }

/-- The shape every reachable state table has under set-only operation
sequences: a prefix of flagged slots with pairwise distinct ids followed by
a suffix of unflagged slots. -/
def TableInv (t : List ExtDataSlot) : Prop :=
  ∃ t1 t2, t = t1 ++ t2 ∧ (∀ sl ∈ t1, flaggedSlot sl = true) ∧
    (∀ sl ∈ t2, flaggedSlot sl = false) ∧ (t1.map ExtDataSlot.id).Nodup

/-! ## Helper lemmas -/

theorem lookupTls_eq_none {l : List HelloExtEntry} {t : Nat}
    (h : ∀ b ∈ l, b.tls_id ≠ t) : lookupTls l t = none := by
  induction l with
  | nil => rfl
  | cons e es ih =>
    simp only [lookupTls]
    rw [if_neg (h e (List.mem_cons_self e es))]
    exact ih fun b hb => h b (List.mem_cons_of_mem e hb)

theorem lookupGid_gid {l : List HelloExtEntry} {id : Nat} {e : HelloExtEntry}
    (h : lookupGid l id = some e) : e.gid = id := by
  induction l with
  | nil => simp [lookupGid] at h
  | cons a l ih =>
    simp only [lookupGid] at h
    by_cases ha : a.gid = id
    · rw [if_pos ha] at h
      cases h
      exact ha
    · rw [if_neg ha] at h
      exact ih h

theorem parseTypeFilter_entry {e e2 : HelloExtEntry} {pt : ParseType}
    (h : parseTypeFilter e pt = some e2) : e2 = e := by
  unfold parseTypeFilter at h
  by_cases hc : pt = ParseType.any ∨ e.parse_type = pt
  · rw [if_pos hc] at h
    cases h
    rfl
  · rw [if_neg hc] at h
    cases h

theorem ext_ptr_gid {ef : List HelloExtEntry} {s : Session} {i : Nat} {pt : ParseType}
    {e : HelloExtEntry} (h : _gnutls_ext_ptr ef s i pt = some e) : e.gid = i := by
  unfold _gnutls_ext_ptr at h
  cases hr : lookupGid s.rexts i with
  | some e1 =>
    rw [hr] at h
    rw [parseTypeFilter_entry h]
    exact lookupGid_gid hr
  | none =>
    rw [hr] at h
    cases hb : lookupGid ef i with
    | some e1 =>
      rw [hb] at h
      rw [parseTypeFilter_entry h]
      exact lookupGid_gid hb
    | none => rw [hb] at h; cases h

theorem ext_ptr_rexts_eq {ef : List HelloExtEntry} {s1 s2 : Session}
    (h : s1.rexts = s2.rexts) (i : Nat) (pt : ParseType) :
    _gnutls_ext_ptr ef s1 i pt = _gnutls_ext_ptr ef s2 i pt := by
  unfold _gnutls_ext_ptr
  rw [h]

theorem list_check_lt {s : Session} {g : Nat} :
    _gnutls_extension_list_check s g < 0 ↔ ¬ s.used_exts.testBit g := by
  unfold _gnutls_extension_list_check
  by_cases h : s.used_exts.testBit g
  · simp [h]
  · simp [h, GNUTLS_E_UNSOLICITED_EXTENSION]

theorem list_check_zero {s : Session} {g : Nat} :
    _gnutls_extension_list_check s g = 0 ↔ s.used_exts.testBit g := by
  unfold _gnutls_extension_list_check
  by_cases h : s.used_exts.testBit g
  · simp [h]
  · simp [h, GNUTLS_E_UNSOLICITED_EXTENSION]

theorem entity_not_server {e : Entity} : e ≠ Entity.server ↔ e = Entity.client := by
  cases e <;> simp

/-! ## C2 -/

theorem parse_tlvs_unsolicited {ef : List HelloExtEntry} {msg : Nat} {pt : ParseType}
    {s : Session} (hc : s.entity = Entity.client) (hz : s.used_exts = 0) :
    ∀ tlvs : List (Nat × Bytes), (∃ t ∈ tlvs, tls_id_to_gid ef s t.1 ≠ 0) →
      (parse_tlvs ef msg pt tlvs s).1 = GNUTLS_E_UNSOLICITED_EXTENSION := by
  intro tlvs
  induction tlvs with
  | nil => rintro ⟨t, ht, _⟩; cases ht
  | cons tv rest ih =>
    rintro ⟨t, ht, hknown⟩
    by_cases hid : tls_id_to_gid ef s tv.1 = 0
    · have hstep : hello_ext_parse ef msg pt s tv.1 tv.2 = (0, s, []) := by
        unfold hello_ext_parse
        simp [hid]
      have : t ∈ rest := by
        rcases List.mem_cons.mp ht with h1 | h1
        · exact absurd (h1 ▸ hid) hknown
        · exact h1
      simp only [parse_tlvs, hstep]
      norm_num
      exact ih ⟨t, this, hknown⟩

    · have hbit : ¬ s.used_exts.testBit (tls_id_to_gid ef s tv.1) := by
        rw [hz]; simp [Nat.zero_testBit]
      have hstep : hello_ext_parse ef msg pt s tv.1 tv.2 =
          (GNUTLS_E_UNSOLICITED_EXTENSION, s, []) := by
        unfold hello_ext_parse
        rw [if_neg hid]
        have hcond : s.entity = Entity.client ∧
            _gnutls_extension_list_check s (tls_id_to_gid ef s tv.1) < 0 :=
          ⟨hc, list_check_lt.mpr hbit⟩
        rw [if_pos hcond]
        unfold _gnutls_extension_list_check
        rw [if_neg hbit]
      simp only [parse_tlvs, hstep]
      norm_num [GNUTLS_E_UNSOLICITED_EXTENSION]

/-- C2: on a client session, a parsed TLV that resolves to a known internal
id which is not set in the advertisement bitset fails with
`UNSOLICITED_EXTENSION` before the descriptor's `recv` is invoked (no
events, session unchanged); in particular a client with an empty
advertisement bitset fails with `UNSOLICITED_EXTENSION` on any block that
contains a known extension. -/
theorem C2_unsolicited_rejection (ef : List HelloExtEntry) (msg : Nat) (pt : ParseType)
    (s : Session) (tls_id : Nat) (data : Bytes) (hc : s.entity = Entity.client) :
    (tls_id_to_gid ef s tls_id ≠ 0 →
      ¬ s.used_exts.testBit (tls_id_to_gid ef s tls_id) →
      hello_ext_parse ef msg pt s tls_id data = (GNUTLS_E_UNSOLICITED_EXTENSION, s, [])) ∧
    (s.used_exts = 0 →
      ∀ tlvs : List (Nat × Bytes), extvDecode data = some tlvs →
      (∃ t ∈ tlvs, tls_id_to_gid ef s t.1 ≠ 0) →
      (_gnutls_parse_extensions ef msg pt s data).1 = GNUTLS_E_UNSOLICITED_EXTENSION) := by
  constructor
  · intro hid hbit
    unfold hello_ext_parse
    rw [if_neg hid]
    rw [if_pos ⟨hc, list_check_lt.mpr hbit⟩]
    unfold _gnutls_extension_list_check
    rw [if_neg hbit]
  · intro hz tlvs hdec hex
    unfold _gnutls_parse_extensions
    rw [hdec]
    exact parse_tlvs_unsolicited hc hz tlvs hex

theorem C2_unsolicited_rejection_witness :
    (_gnutls_parse_extensions [tExtSV] GNUTLS_EXT_FLAG_TLS13_SERVER_HELLO ParseType.any
      (initSession Entity.client []) [0, 43, 0, 0]).1 = GNUTLS_E_UNSOLICITED_EXTENSION :=
  (C2_unsolicited_rejection [tExtSV] GNUTLS_EXT_FLAG_TLS13_SERVER_HELLO ParseType.any
      (initSession Entity.client []) 43 [0, 43, 0, 0] rfl).2 rfl [(43, [])] (by decide)
    ⟨(43, []), by decide, by decide⟩

/-! ## C3 -/

/-- C3: a parsed TLV whose descriptor is found (parse-class filter
satisfied) and has a `recv` op, but whose carrier message is not in the
descriptor's validity mask, fails with the `ILLEGAL_EXTENSION_FOR_MESSAGE`
kind (`GNUTLS_E_RECEIVED_ILLEGAL_EXTENSION` in the code) and the
descriptor's `recv` is not invoked (no events, session unchanged). -/
theorem C3_validity_mask (ef : List HelloExtEntry) (msg : Nat) (pt : ParseType)
    (s : Session) (tls_id : Nat) (data : Bytes) (ext : HelloExtEntry)
    (recv : Bytes → Int)
    (hsv : s.entity = Entity.server ∨ s.used_exts.testBit (tls_id_to_gid ef s tls_id))
    (hid : tls_id_to_gid ef s tls_id ≠ 0)
    (hext : _gnutls_ext_ptr ef s (tls_id_to_gid ef s tls_id) pt = some ext)
    (hrecv : ext.recv_func = some recv)
    (hval : ext.validity &&& msg = 0) :
    hello_ext_parse ef msg pt s tls_id data =
      (GNUTLS_E_RECEIVED_ILLEGAL_EXTENSION, s, []) := by
  unfold hello_ext_parse
  rw [if_neg hid]
  have hnc : ¬ (s.entity = Entity.client ∧
      _gnutls_extension_list_check s (tls_id_to_gid ef s tls_id) < 0) := by
    rintro ⟨hcl, hlt⟩
    rcases hsv with h | h
    · rw [hcl] at h; cases h
    · exact (list_check_lt.mp hlt) h
  rw [if_neg hnc]
  simp only [hext, hrecv]
  rw [if_pos hval]

theorem C3_validity_mask_witness :
    hello_ext_parse [tExtCHonly] GNUTLS_EXT_FLAG_TLS13_SERVER_HELLO ParseType.any
      (initSession Entity.server []) 21 [] =
      (GNUTLS_E_RECEIVED_ILLEGAL_EXTENSION, initSession Entity.server [], []) :=
  C3_validity_mask [tExtCHonly] GNUTLS_EXT_FLAG_TLS13_SERVER_HELLO ParseType.any
    (initSession Entity.server []) 21 [] tExtCHonly (fun _ => 0)
    (Or.inl rfl) (by decide) rfl rfl (by decide)

/-! ## C4 -/

/-- C4: the code violates the claim (and its own comments, lib/extensions.c
lines 277-278 and 346-347): when an overlay and a built-in share wire id
16, a client emit produces TWO TLVs for wire id 16 — the skip rule tests
the advertisement bit of the descriptor's internal id, and the overlay's
internal id (20) differs from the built-in's (3), so the bit the overlay
sets does not suppress the built-in.  Evaluating the emit at this input
yields the overlay's TLV followed by the built-in's. -/
theorem C4_double_emission :
    genWireTLVs [tBi16] GNUTLS_EXT_FLAG_CLIENT_HELLO ParseType.any
      (initSession Entity.client [tOv16]) = some [(16, [1]), (16, [2])] := by
  decide

/-! ## C10 -/

/-- C10: `gnutls_ext_get_name` consults only the built-in catalog: for a
wire id carried only by the session overlay it returns `none`, while the
wire id still resolves to the overlay's internal id (so parse does not
treat it as unknown), the internal-id lookup dispatches through the
overlay first, and an inbound TLV for that wire id does invoke the
overlay's `recv`. -/
theorem C10_name_lookup_builtins_only (ef : List HelloExtEntry) (s : Session)
    (tls_id : Nat) (e : HelloExtEntry)
    (hno : ∀ b ∈ ef, b.tls_id ≠ tls_id)
    (hov : lookupTls s.rexts tls_id = some e) :
    gnutls_ext_get_name ef tls_id = none ∧
    tls_id_to_gid ef s tls_id = e.gid ∧
    (∀ pt e2, lookupGid s.rexts e.gid = some e2 →
      _gnutls_ext_ptr ef s e.gid pt = parseTypeFilter e2 pt) ∧
    (∀ msg pt data ext recv,
      e.gid ≠ 0 →
      s.entity = Entity.server →
      _gnutls_ext_ptr ef s e.gid pt = some ext →
      ext.recv_func = some recv →
      ¬ ext.validity &&& msg = 0 →
      ¬ s.used_exts.testBit ext.gid →
      (hello_ext_parse ef msg pt s tls_id data).2.2 = [ExtEvent.recvCall e.gid data]) := by
  refine ⟨?_, ?_, ?_, ?_⟩
  · unfold gnutls_ext_get_name
    rw [lookupTls_eq_none hno]
    rfl
  · unfold tls_id_to_gid
    rw [hov]
  · intro pt e2 hg
    unfold _gnutls_ext_ptr
    rw [hg]
  · intro msg pt data ext recv hgz hsrv hext hrecv hval hbit
    have hgid : tls_id_to_gid ef s tls_id = e.gid := by
      unfold tls_id_to_gid
      rw [hov]
    unfold hello_ext_parse
    rw [hgid, if_neg hgz]
    have hnc : ¬ (s.entity = Entity.client ∧
        _gnutls_extension_list_check s e.gid < 0) := by
      rintro ⟨hcl, _⟩
      rw [hsrv] at hcl
      cases hcl
    rw [if_neg hnc]
    simp only [hext, hrecv]
    rw [if_neg hval, if_pos hsrv]
    simp [_gnutls_extension_list_add, hbit]

theorem C10_name_lookup_builtins_only_witness :
    gnutls_ext_get_name [tB1] 100 = none ∧
    tls_id_to_gid [tB1] (initSession Entity.server [tOvX]) 100 = 20 ∧
    (hello_ext_parse [tB1] GNUTLS_EXT_FLAG_TLS13_SERVER_HELLO ParseType.any
      (initSession Entity.server [tOvX]) 100 [7]).2.2 = [ExtEvent.recvCall 20 [7]] := by
  have h := C10_name_lookup_builtins_only [tB1] (initSession Entity.server [tOvX])
    100 tOvX (by decide) rfl
  refine ⟨h.1, h.2.1, ?_⟩
  exact h.2.2.2 GNUTLS_EXT_FLAG_TLS13_SERVER_HELLO ParseType.any [7] tOvX (fun _ => 0)
    (by decide) rfl rfl rfl (by decide) (by decide)

/-! ## C7 -/

theorem hit_slot_iff {id : Nat} {s : ExtDataSlot} :
    hit_slot id s = true ↔ (s.id = id ∨ (s.set = false ∧ s.resumed_set = false)) := by
  simp [hit_slot, Bool.or_eq_true, Bool.and_eq_true, Bool.not_eq_true']

theorem set_data_loop_none {id : Nat} (ext : Option HelloExtEntry) (data : Priv) :
    ∀ tbl : List ExtDataSlot, hitIdx id tbl = none → set_data_loop ext id data tbl = none := by
  intro tbl
  induction tbl with
  | nil => intro _; rfl
  | cons sl rest ih =>
    intro h
    simp only [hitIdx] at h
    by_cases hh : hit_slot id sl = true
    · rw [if_pos hh] at h; cases h
    · rw [if_neg hh] at h
      have hr : hitIdx id rest = none := by
        cases he : hitIdx id rest with
        | none => rfl
        | some k => rw [he] at h; cases h
      simp only [set_data_loop]
      rw [if_neg (fun hp => hh (hit_slot_iff.mpr hp))]
      rw [ih hr]

theorem set_data_loop_some {id : Nat} (ext : Option HelloExtEntry) (data : Priv) :
    ∀ (tbl : List ExtDataSlot) (j : Nat) (slot : ExtDataSlot),
      hitIdx id tbl = some j → tbl.get? j = some slot →
      set_data_loop ext id data tbl =
        some (tbl.set j { slot with id := id, priv := data, set := true },
              if slot.set then (unset_ext_data ext slot).2 else []) := by
  intro tbl
  induction tbl with
  | nil => intro j slot h; cases h
  | cons sl rest ih =>
    intro j slot h hget
    simp only [hitIdx] at h
    by_cases hh : hit_slot id sl = true
    · rw [if_pos hh] at h
      cases h
      simp only [List.get?] at hget
      cases hget
      simp only [set_data_loop]
      rw [if_pos (hit_slot_iff.mp hh)]
      simp only [List.set]
      by_cases hs : sl.set
      · simp [hs, unset_ext_data]
      · have hs' : sl.set = false := by simpa using hs
        simp [hs', unset_ext_data]
    · rw [if_neg hh] at h
      cases he : hitIdx id rest with
      | none => rw [he] at h; cases h
      | some k =>
        rw [he] at h
        simp only [Option.map] at h
        cases h
        simp only [List.get?] at hget
        simp only [set_data_loop]
        rw [if_neg (fun hp => hh (hit_slot_iff.mpr hp))]
        rw [ih k slot he hget]
        simp [List.set]

theorem set_resumed_data_loop_none {id : Nat} (ext : Option HelloExtEntry) (data : Priv) :
    ∀ tbl : List ExtDataSlot, hitIdx id tbl = none →
      set_resumed_data_loop ext id data tbl = none := by
  intro tbl
  induction tbl with
  | nil => intro _; rfl
  | cons sl rest ih =>
    intro h
    simp only [hitIdx] at h
    by_cases hh : hit_slot id sl = true
    · rw [if_pos hh] at h; cases h
    · rw [if_neg hh] at h
      have hr : hitIdx id rest = none := by
        cases he : hitIdx id rest with
        | none => rfl
        | some k => rw [he] at h; cases h
      simp only [set_resumed_data_loop]
      rw [if_neg (fun hp => hh (hit_slot_iff.mpr (hp.imp_right And.symm)))]
      rw [ih hr]

theorem set_resumed_data_loop_some {id : Nat} (ext : Option HelloExtEntry) (data : Priv) :
    ∀ (tbl : List ExtDataSlot) (j : Nat) (slot : ExtDataSlot),
      hitIdx id tbl = some j → tbl.get? j = some slot →
      set_resumed_data_loop ext id data tbl =
        some (tbl.set j { slot with id := id, resumed_priv := data, resumed_set := true },
              if slot.resumed_set then (unset_resumed_ext_data ext slot).2 else []) := by
  intro tbl
  induction tbl with
  | nil => intro j slot h; cases h
  | cons sl rest ih =>
    intro j slot h hget
    simp only [hitIdx] at h
    by_cases hh : hit_slot id sl = true
    · rw [if_pos hh] at h
      cases h
      simp only [List.get?] at hget
      cases hget
      simp only [set_resumed_data_loop]
      rw [if_pos ((hit_slot_iff.mp hh).imp_right And.symm)]
      simp only [List.set]
      by_cases hs : sl.resumed_set
      · simp [hs, unset_resumed_ext_data]
      · have hs' : sl.resumed_set = false := by simpa using hs
        simp [hs', unset_resumed_ext_data]
    · rw [if_neg hh] at h
      cases he : hitIdx id rest with
      | none => rw [he] at h; cases h
      | some k =>
        rw [he] at h
        simp only [Option.map] at h
        cases h
        simp only [List.get?] at hget
        simp only [set_resumed_data_loop]
        rw [if_neg (fun hp => hh (hit_slot_iff.mpr (hp.imp_right And.symm)))]
        rw [ih k slot he hget]
        simp [List.set]

/-- C7 (amended): `set_live(id,priv)` (and symmetrically `set_resumed`)
stores into the FIRST slot, in table order, whose id matches or which has
neither flag set — a free slot earlier in the table wins over a later
id-matching slot — deinitializing the chosen slot's previously held value
of the same kind first; when no such slot exists the call silently does
nothing and no error is reported (the C function is `void`). -/
theorem C7_set_data_characterization (ef : List HelloExtEntry) (s : Session)
    (id : Nat) (data : Priv) :
    (hitIdx id s.ext_data = none →
      _gnutls_ext_set_session_data ef s id data = (s, []) ∧
      _gnutls_ext_set_resumed_session_data ef s id data = (s, [])) ∧
    (∀ j slot, hitIdx id s.ext_data = some j → s.ext_data.get? j = some slot →
      _gnutls_ext_set_session_data ef s id data =
        ({ s with ext_data :=
            s.ext_data.set j { slot with id := id, priv := data, set := true } },
         if slot.set then
           (unset_ext_data (_gnutls_ext_ptr ef s id ParseType.any) slot).2
         else []) ∧
      _gnutls_ext_set_resumed_session_data ef s id data =
        ({ s with ext_data :=
            s.ext_data.set j { slot with id := id, resumed_priv := data, resumed_set := true } },
         if slot.resumed_set then
           (unset_resumed_ext_data (_gnutls_ext_ptr ef s id ParseType.any) slot).2
         else [])) := by
  constructor
  · intro hnone
    constructor
    · simp only [_gnutls_ext_set_session_data, set_data_loop_none _ _ _ hnone]
    · simp only [_gnutls_ext_set_resumed_session_data,
        set_resumed_data_loop_none _ _ _ hnone]
  · intro j slot hj hget
    constructor
    · simp only [_gnutls_ext_set_session_data, set_data_loop_some _ _ _ j slot hj hget]
    · simp only [_gnutls_ext_set_resumed_session_data,
        set_resumed_data_loop_some _ _ _ j slot hj hget]

theorem C7_set_data_characterization_witness :
    _gnutls_ext_set_session_data [] c7sessPre 7 3 =
      ({ c7sessPre with ext_data := c7sessPre.ext_data.set 0 { id := 7, set := true, priv := 3, resumed_set := false, resumed_priv := 0 } }, []) :=
  ((C7_set_data_characterization [] c7sessPre 7 3).2 0
    { id := 5, set := false, priv := 1, resumed_set := false, resumed_priv := 0 }
    (by decide) (by decide)).1

/-- C7 counterexample: on the table `[{id 5, both flags clear}, {id 7,
live}]` the claim's rule (id-matching slot first, free slot only otherwise)
stores datum 3 into slot 1, but the code stores it into the free slot 0,
leaving the old id-7 entry in slot 1 untouched — so the claim, as stated,
is false at this input. -/
theorem C7_counterexample :
    liveSlotView (spec_set_live [] c7sessPre 7 3) = some [(5, false, 1), (7, true, 3)] ∧
    liveSlotView (Except.ok (_gnutls_ext_set_session_data [] c7sessPre 7 3)) =
      some [(7, true, 3), (7, true, 2)] := by
  exact ⟨by decide, by decide⟩

/-! ## C6 -/

theorem flagged_not_free {sl : ExtDataSlot} (h : flaggedSlot sl = true) :
    ¬ (sl.set = false ∧ sl.resumed_set = false) := by
  rintro ⟨h1, h2⟩
  simp [flaggedSlot, h1, h2] at h

theorem free_parts {sl : ExtDataSlot} (h : flaggedSlot sl = false) :
    sl.set = false ∧ sl.resumed_set = false := by
  simpa [flaggedSlot] using h

theorem set_loop_table_inv (ext : Option HelloExtEntry) (id : Nat) (data : Priv) :
    ∀ (t1 t2 : List ExtDataSlot),
      (∀ sl ∈ t1, flaggedSlot sl = true) →
      (∀ sl ∈ t2, flaggedSlot sl = false) →
      (t1.map ExtDataSlot.id).Nodup →
      ∀ t' evs, set_data_loop ext id data (t1 ++ t2) = some (t', evs) →
      ∃ u1 u2, t' = u1 ++ u2 ∧ (∀ sl ∈ u1, flaggedSlot sl = true) ∧
        (∀ sl ∈ u2, flaggedSlot sl = false) ∧ (u1.map ExtDataSlot.id).Nodup ∧
        (∀ x ∈ u1.map ExtDataSlot.id, x ∈ id :: t1.map ExtDataSlot.id) := by
  intro t1
  induction t1 with
  | nil =>
    intro t2 _ h2 _ t' evs hloop
    cases t2 with
    | nil => cases hloop
    | cons sl rest =>
      have hfree := free_parts (h2 sl (List.mem_cons_self sl rest))
      simp only [List.nil_append, set_data_loop] at hloop
      rw [if_pos (Or.inr hfree)] at hloop
      rw [if_neg (by simp [hfree.1])] at hloop
      cases hloop
      refine ⟨[{ sl with id := id, priv := data, set := true }], rest, by simp, ?_, ?_, ?_, ?_⟩
      · intro x hx
        cases List.mem_singleton.mp hx
        simp [flaggedSlot]
      · intro x hx
        exact h2 x (List.mem_cons_of_mem sl hx)
      · simp
      · intro x hx
        simp at hx
        simp [hx]
  | cons sl t1rest ih =>
    intro t2 h1 h2 hnd t' evs hloop
    have hfl := h1 sl (List.mem_cons_self sl t1rest)
    simp only [List.cons_append, set_data_loop, List.append_eq] at hloop
    by_cases hsl : sl.id = id
    · rw [if_pos (Or.inl hsl)] at hloop
      cases hloop
      refine ⟨{ (if sl.set then unset_ext_data ext sl else (sl, [])).1 with
          id := id, priv := data, set := true } :: t1rest, t2, by simp, ?_, h2, ?_, ?_⟩
      · intro x hx
        rcases List.mem_cons.mp hx with h | h
        · rw [h]; simp [flaggedSlot]
        · exact h1 x (List.mem_cons_of_mem sl h)
      · simp only [List.map_cons] at hnd ⊢
        rw [hsl] at hnd
        simpa using hnd
      · intro x hx
        simp only [List.map_cons, List.mem_cons] at hx ⊢
        rcases hx with h | h
        · exact Or.inl h
        · exact Or.inr (Or.inr h)
    · rw [if_neg (by rintro (h | h); exact hsl h; exact flagged_not_free hfl h)] at hloop
      cases hrec : set_data_loop ext id data (t1rest ++ t2) with
      | none => rw [hrec] at hloop; cases hloop
      | some pr =>
        rw [hrec] at hloop
        cases hloop
        obtain ⟨u1, u2, hpr, hu1, hu2, hund, hsub⟩ :=
          ih t2 (fun x hx => h1 x (List.mem_cons_of_mem sl hx)) h2
            (by simpa using hnd.of_cons) pr.1 pr.2 (by rw [hrec])
        refine ⟨sl :: u1, u2, by simp [hpr], ?_, hu2, ?_, ?_⟩
        · intro x hx
          rcases List.mem_cons.mp hx with h | h
          · rw [h]; exact hfl
          · exact hu1 x h
        · simp only [List.map_cons, List.nodup_cons]
          refine ⟨?_, hund⟩
          intro hmem
          rcases List.mem_cons.mp (hsub sl.id hmem) with h | h
          · exact hsl h
          · simp only [List.map_cons, List.nodup_cons] at hnd
            exact hnd.1 h
        · intro x hx
          simp only [List.map_cons, List.mem_cons] at hx ⊢
          rcases hx with h | h
          · exact Or.inr (Or.inl h)
          · rcases List.mem_cons.mp (hsub x h) with h3 | h3
            · exact Or.inl h3
            · exact Or.inr (Or.inr h3)

theorem set_resumed_loop_table_inv (ext : Option HelloExtEntry) (id : Nat) (data : Priv) :
    ∀ (t1 t2 : List ExtDataSlot),
      (∀ sl ∈ t1, flaggedSlot sl = true) →
      (∀ sl ∈ t2, flaggedSlot sl = false) →
      (t1.map ExtDataSlot.id).Nodup →
      ∀ t' evs, set_resumed_data_loop ext id data (t1 ++ t2) = some (t', evs) →
      ∃ u1 u2, t' = u1 ++ u2 ∧ (∀ sl ∈ u1, flaggedSlot sl = true) ∧
        (∀ sl ∈ u2, flaggedSlot sl = false) ∧ (u1.map ExtDataSlot.id).Nodup ∧
        (∀ x ∈ u1.map ExtDataSlot.id, x ∈ id :: t1.map ExtDataSlot.id) := by
  intro t1
  induction t1 with
  | nil =>
    intro t2 _ h2 _ t' evs hloop
    cases t2 with
    | nil => cases hloop
    | cons sl rest =>
      have hfree := free_parts (h2 sl (List.mem_cons_self sl rest))
      simp only [List.nil_append, set_resumed_data_loop] at hloop
      rw [if_pos (Or.inr ⟨hfree.2, hfree.1⟩)] at hloop
      rw [if_neg (by simp [hfree.2])] at hloop
      cases hloop
      refine ⟨[{ sl with id := id, resumed_priv := data, resumed_set := true }], rest,
        by simp, ?_, ?_, ?_, ?_⟩
      · intro x hx
        cases List.mem_singleton.mp hx
        simp [flaggedSlot]
      · intro x hx
        exact h2 x (List.mem_cons_of_mem sl hx)
      · simp
      · intro x hx
        simp at hx
        simp [hx]
  | cons sl t1rest ih =>
    intro t2 h1 h2 hnd t' evs hloop
    have hfl := h1 sl (List.mem_cons_self sl t1rest)
    simp only [List.cons_append, set_resumed_data_loop, List.append_eq] at hloop
    by_cases hsl : sl.id = id
    · rw [if_pos (Or.inl hsl)] at hloop
      cases hloop
      refine ⟨{ (if sl.resumed_set then unset_resumed_ext_data ext sl else (sl, [])).1 with
          id := id, resumed_priv := data, resumed_set := true } :: t1rest, t2,
          by simp, ?_, h2, ?_, ?_⟩
      · intro x hx
        rcases List.mem_cons.mp hx with h | h
        · rw [h]; simp [flaggedSlot]
        · exact h1 x (List.mem_cons_of_mem sl h)
      · simp only [List.map_cons] at hnd ⊢
        rw [hsl] at hnd
        simpa using hnd
      · intro x hx
        simp only [List.map_cons, List.mem_cons] at hx ⊢
        rcases hx with h | h
        · exact Or.inl h
        · exact Or.inr (Or.inr h)
    · have hcond : ¬ (sl.id = id ∨ (sl.resumed_set = false ∧ sl.set = false)) := by
        rintro (h | h)
        · exact hsl h
        · exact flagged_not_free hfl ⟨h.2, h.1⟩
      rw [if_neg hcond] at hloop
      cases hrec : set_resumed_data_loop ext id data (t1rest ++ t2) with
      | none => rw [hrec] at hloop; cases hloop
      | some pr =>
        rw [hrec] at hloop
        cases hloop
        obtain ⟨u1, u2, hpr, hu1, hu2, hund, hsub⟩ :=
          ih t2 (fun x hx => h1 x (List.mem_cons_of_mem sl hx)) h2
            (by simpa using hnd.of_cons) pr.1 pr.2 (by rw [hrec])
        refine ⟨sl :: u1, u2, by simp [hpr], ?_, hu2, ?_, ?_⟩
        · intro x hx
          rcases List.mem_cons.mp hx with h | h
          · rw [h]; exact hfl
          · exact hu1 x h
        · simp only [List.map_cons, List.nodup_cons]
          refine ⟨?_, hund⟩
          intro hmem
          rcases List.mem_cons.mp (hsub sl.id hmem) with h | h
          · exact hsl h
          · simp only [List.map_cons, List.nodup_cons] at hnd
            exact hnd.1 h
        · intro x hx
          simp only [List.map_cons, List.mem_cons] at hx ⊢
          rcases hx with h | h
          · exact Or.inr (Or.inl h)
          · rcases List.mem_cons.mp (hsub x h) with h3 | h3
            · exact Or.inl h3
            · exact Or.inr (Or.inr h3)

theorem applyOp_inv (ef : List HelloExtEntry) (s : Session) (op : TblOp)
    (h : TableInv s.ext_data) : TableInv ((applyOp ef s op).ext_data) := by
  obtain ⟨t1, t2, heq, h1, h2, hnd⟩ := h
  cases op with
  | setL id d =>
    simp only [applyOp, _gnutls_ext_set_session_data]
    cases hloop : set_data_loop (_gnutls_ext_ptr ef s id ParseType.any) id d s.ext_data with
    | none => exact ⟨t1, t2, heq, h1, h2, hnd⟩
    | some pr =>
      obtain ⟨u1, u2, hpr, hu1, hu2, hund, _⟩ :=
        set_loop_table_inv _ id d t1 t2 h1 h2 hnd pr.1 pr.2 (by rw [← heq, hloop])
      exact ⟨u1, u2, hpr, hu1, hu2, hund⟩
  | setR id d =>
    simp only [applyOp, _gnutls_ext_set_resumed_session_data]
    cases hloop : set_resumed_data_loop (_gnutls_ext_ptr ef s id ParseType.any) id d
        s.ext_data with
    | none => exact ⟨t1, t2, heq, h1, h2, hnd⟩
    | some pr =>
      obtain ⟨u1, u2, hpr, hu1, hu2, hund, _⟩ :=
        set_resumed_loop_table_inv _ id d t1 t2 h1 h2 hnd pr.1 pr.2 (by rw [← heq, hloop])
      exact ⟨u1, u2, hpr, hu1, hu2, hund⟩

theorem applyOps_inv (ef : List HelloExtEntry) :
    ∀ (ops : List TblOp) (s : Session), TableInv s.ext_data →
      TableInv ((applyOps ef ops s).ext_data) := by
  intro ops
  induction ops with
  | nil => intro s h; exact h
  | cons op rest ih =>
    intro s h
    exact ih (applyOp ef s op) (applyOp_inv ef s op h)

theorem flagged_filter_len {id : Nat} :
    ∀ t1 : List ExtDataSlot, (∀ sl ∈ t1, flaggedSlot sl = true) →
      (t1.map ExtDataSlot.id).Nodup →
      (t1.filter (fun sl => flaggedSlot sl && sl.id == id)).length ≤ 1 := by
  intro t1
  induction t1 with
  | nil => intro _ _; simp
  | cons sl rest ih =>
    intro h1 hnd
    have hfl := h1 sl (List.mem_cons_self sl rest)
    simp only [List.map_cons, List.nodup_cons] at hnd
    by_cases hsl : sl.id = id
    · have hrest : rest.filter (fun sl => flaggedSlot sl && sl.id == id) = [] := by
        rw [List.filter_eq_nil_iff]
        intro a ha
        have hane : a.id ≠ id := by
          intro hid
          exact hnd.1 (List.mem_map.mpr ⟨a, ha, by rw [hid, hsl]⟩)
        simp [hane]
      rw [List.filter_cons_of_pos (by simp [hfl, hsl]), hrest]
      simp
    · rw [List.filter_cons_of_neg (by simp [hsl])]
      exact ih (fun x hx => h1 x (List.mem_cons_of_mem sl hx)) hnd.2

theorem count_le_one_of_inv {t : List ExtDataSlot} (h : TableInv t) (id : Nat) :
    countIdFlagged t id ≤ 1 := by
  obtain ⟨t1, t2, heq, h1, h2, hnd⟩ := h
  have hft2 : t2.filter (fun sl => flaggedSlot sl && sl.id == id) = [] := by
    rw [List.filter_eq_nil_iff]
    intro a ha
    simp [h2 a ha]
  rw [heq]
  unfold countIdFlagged
  rw [List.filter_append, hft2, List.append_nil]
  exact flagged_filter_len t1 h1 hnd

/-- C6 (amended): starting from a fresh session, after any sequence of
`set_live` and `set_resumed` operations (in any interleaving) at most one
slot of the state table holds the given internal id with its live or
resumed flag set.  (The unrestricted claim, with `unset` operations
interleaved, is refuted by `C6_counterexample`: an unset can free a slot
that precedes a flagged slot of some id, and a later set of that id then
fills the free slot, leaving two flagged slots with the same id.) -/
theorem C6_state_table_uniqueness (ef : List HelloExtEntry) (ent : Entity)
    (rx : List HelloExtEntry) (ops : List TblOp) (id : Nat) :
    countIdFlagged ((applyOps ef ops (initSession ent rx)).ext_data) id ≤ 1 := by
  refine count_le_one_of_inv (applyOps_inv ef ops (initSession ent rx) ?_) id
  refine ⟨[], List.replicate MAX_EXT_TYPES emptySlot, rfl, ?_, ?_, List.nodup_nil⟩
  · intro sl hsl
    cases hsl
  · intro sl hsl
    rw [List.eq_of_mem_replicate hsl]
    rfl

/-- C6 counterexample: the operation sequence `set_live(5,1); set_live(7,2);
unset_live(5); set_live(7,3)` on a fresh session leaves TWO slots with
internal id 7 and the live flag set (the freed slot 0 is reused for id 7
while slot 1 still holds id 7), so the claimed invariant fails for
sequences containing an unset. -/
theorem C6_counterexample : countIdFlagged c6sess.ext_data 7 = 2 := by
  decide

/-! ## C9 -/

theorem gid_scan_ge : ∀ (l : List HelloExtEntry) (g : Nat), g ≤ gid_scan l g := by
  intro l
  induction l with
  | nil => intro g; exact Nat.le_refl g
  | cons e es ih =>
    intro g
    refine Nat.le_trans ?_ (ih (if g ≤ e.gid then e.gid + 1 else g))
    by_cases h : g ≤ e.gid
    · rw [if_pos h]; omega
    · rw [if_neg h]

theorem gid_scan_gt : ∀ (l : List HelloExtEntry) (g : Nat) (e : HelloExtEntry),
    e ∈ l → e.gid < gid_scan l g := by
  intro l
  induction l with
  | nil => intro g e he; cases he
  | cons a es ih =>
    intro g e he
    rcases List.mem_cons.mp he with h | h
    · rw [h]
      simp only [gid_scan]
      have hstep : a.gid < (if g ≤ a.gid then a.gid + 1 else g) := by
        by_cases hc : g ≤ a.gid
        · rw [if_pos hc]; omega
        · rw [if_neg hc]; omega
      exact Nat.lt_of_lt_of_le hstep (gid_scan_ge es _)
    · exact ih _ e h

theorem session_reg_scan_ge (tid flags : Nat) :
    ∀ (l : List HelloExtEntry) (g g0 : Nat),
      session_reg_scan tid flags l g = Except.ok g0 → g ≤ g0 := by
  intro l
  induction l with
  | nil =>
    intro g g0 h
    cases h
    exact Nat.le_refl g
  | cons e es ih =>
    intro g g0 h
    simp only [session_reg_scan] at h
    by_cases hc : e.tls_id = tid
    · rw [if_pos hc] at h
      by_cases ho : flags &&& GNUTLS_EXT_FLAG_OVERRIDE_INTERNAL = 0
      · rw [if_pos ho] at h; cases h
      · rw [if_neg ho] at h
        by_cases hov : e.cannot_be_overriden
        · rw [if_pos (by simpa using hov)] at h; cases h
        · rw [if_neg (by simpa using hov)] at h
          cases h
          exact Nat.le_refl g
    · rw [if_neg hc] at h
      refine Nat.le_trans ?_ (ih _ g0 h)
      by_cases hgc : g ≤ e.gid
      · rw [if_pos hgc]; omega
      · rw [if_neg hgc]

theorem session_reg_scan_no_collision (tid flags : Nat) :
    ∀ (l : List HelloExtEntry) (g : Nat), (∀ e ∈ l, e.tls_id ≠ tid) →
      session_reg_scan tid flags l g = Except.ok (gid_scan l g) := by
  intro l
  induction l with
  | nil => intro g _; rfl
  | cons e es ih =>
    intro g hno
    simp only [session_reg_scan, gid_scan]
    rw [if_neg (hno e (List.mem_cons_self e es))]
    exact ih _ fun x hx => hno x (List.mem_cons_of_mem e hx)

theorem any_tls_false {l : List HelloExtEntry} {tid : Nat}
    (h : ∀ e ∈ l, e.tls_id ≠ tid) : l.any (fun e => e.tls_id = tid) = false := by
  rw [List.any_eq_false]
  intro e he
  simp [h e he]

/-- C9 (amended): process-wide registration allocates an internal id
strictly greater than every id in the built-in tier and at least
`GNUTLS_EXTENSION_MAX+1`; session-level registration allocates an id
strictly greater than every overlay id and — when no built-in shares the
wire id — strictly greater than every built-in id as well; both fail with
the out-of-space error when the candidate id exceeds
`GNUTLS_EXTENSION_MAX_VALUE`.  (The unrestricted cross-tier claim is
refuted by `C9_counterexample`: an override registration stops the
built-in scan at the overridden entry, so ids of built-ins registered
after it can be reused.) -/
theorem C9_id_allocation (ef : List HelloExtEntry) (s : Session) (nm : String)
    (tid : Nat) (pt : ParseType) (rf : Option (Bytes → Int)) (sf : Option (Bytes × Int))
    (df : Bool) (pf : Option (Priv → Bytes × Int))
    (uf : Option (Bytes → Except Int (Priv × Nat))) (flags : Nat) :
    (∀ ef2, gnutls_ext_register ef nm tid pt rf sf df pf uf = Except.ok ef2 →
      ∃ newent, ef2 = ef ++ [newent] ∧ GNUTLS_EXTENSION_MAX < newent.gid ∧
        ∀ e ∈ ef, e.gid < newent.gid) ∧
    (∀ s2, gnutls_session_ext_register ef s nm tid pt rf sf df pf uf flags =
        Except.ok s2 →
      ∃ newent, s2.rexts = s.rexts ++ [newent] ∧ GNUTLS_EXTENSION_MAX < newent.gid ∧
        (∀ e ∈ s.rexts, e.gid < newent.gid) ∧
        ((∀ e ∈ ef, e.tls_id ≠ tid) → ∀ e ∈ ef, e.gid < newent.gid)) ∧
    (GNUTLS_EXTENSION_MAX_VALUE < gid_scan ef (GNUTLS_EXTENSION_MAX + 1) →
      (∀ e ∈ ef, e.tls_id ≠ tid) → (∀ e ∈ s.rexts, e.tls_id ≠ tid) →
      gnutls_ext_register ef nm tid pt rf sf df pf uf =
        Except.error GNUTLS_E_MEMORY_ERROR ∧
      gnutls_session_ext_register ef s nm tid pt rf sf df pf uf flags =
        Except.error GNUTLS_E_MEMORY_ERROR) := by
  refine ⟨?_, ?_, ?_⟩
  · intro ef2 hok
    simp only [gnutls_ext_register, ext_register] at hok
    by_cases hany : ef.any (fun e => e.tls_id = tid)
    · rw [if_pos hany] at hok; cases hok
    · rw [if_neg hany] at hok
      by_cases hmem : GNUTLS_EXTENSION_MAX_VALUE < gid_scan ef (GNUTLS_EXTENSION_MAX + 1)
      · rw [if_pos hmem] at hok; cases hok
      · rw [if_neg hmem] at hok
        by_cases hfull : MAX_EXT_TYPES - 1 ≤ ef.length
        · rw [if_pos hfull] at hok; cases hok
        · rw [if_neg hfull] at hok
          cases hok
          refine ⟨_, rfl, ?_, ?_⟩
          · show GNUTLS_EXTENSION_MAX < gid_scan ef (GNUTLS_EXTENSION_MAX + 1)
            have := gid_scan_ge ef (GNUTLS_EXTENSION_MAX + 1)
            omega
          · intro e he
            exact gid_scan_gt ef _ e he
  · intro s2 hok
    simp only [gnutls_session_ext_register] at hok
    cases hscan : session_reg_scan tid flags ef (GNUTLS_EXTENSION_MAX + 1) with
    | error e => simp [hscan] at hok
    | ok gid0 =>
      simp only [hscan] at hok
      by_cases hany : s.rexts.any (fun e => e.tls_id = tid)
      · rw [if_pos (by simpa using hany)] at hok; cases hok
      · rw [if_neg (by simpa using hany)] at hok
        by_cases hmem : GNUTLS_EXTENSION_MAX_VALUE < gid_scan s.rexts gid0
        · rw [if_pos hmem] at hok; cases hok
        · rw [if_neg hmem] at hok
          cases hok
          have hge0 : GNUTLS_EXTENSION_MAX + 1 ≤ gid0 :=
            session_reg_scan_ge tid flags ef _ gid0 hscan
          refine ⟨_, rfl, ?_, ?_, ?_⟩
          · show GNUTLS_EXTENSION_MAX < gid_scan s.rexts gid0
            have := gid_scan_ge s.rexts gid0
            omega
          · intro e he
            exact gid_scan_gt s.rexts gid0 e he
          · intro hno e he
            have heq : session_reg_scan tid flags ef (GNUTLS_EXTENSION_MAX + 1) =
                Except.ok (gid_scan ef (GNUTLS_EXTENSION_MAX + 1)) :=
              session_reg_scan_no_collision tid flags ef _ hno
            rw [hscan] at heq
            have hg0 : gid0 = gid_scan ef (GNUTLS_EXTENSION_MAX + 1) :=
              (Except.ok.injEq _ _).mp heq
            show e.gid < gid_scan s.rexts gid0
            have h1 := gid_scan_gt ef (GNUTLS_EXTENSION_MAX + 1) e he
            have h2 := gid_scan_ge s.rexts gid0
            omega
  · intro hexh hno hnor
    have hb : ef.any (fun e => e.tls_id = tid) = false := any_tls_false hno
    have hbr : s.rexts.any (fun e => e.tls_id = tid) = false := any_tls_false hnor
    constructor
    · simp only [gnutls_ext_register]
      rw [if_neg (by rw [hb]; exact Bool.false_ne_true)]
      rw [if_pos hexh]
    · simp only [gnutls_session_ext_register,
        session_reg_scan_no_collision tid flags ef _ hno]
      rw [if_neg (by rw [hbr]; exact Bool.false_ne_true)]
      have hlt : GNUTLS_EXTENSION_MAX_VALUE <
          gid_scan s.rexts (gid_scan ef (GNUTLS_EXTENSION_MAX + 1)) := by
        have := gid_scan_ge s.rexts (gid_scan ef (GNUTLS_EXTENSION_MAX + 1))
        omega
      rw [if_pos hlt]

/-- C9 counterexample: with built-ins `[{tls_id 1, gid 1}, {tls_id 100,
gid 20}]`, a session-level override registration of wire id 1 breaks out of
the built-in scan at the first entry and assigns internal id 20 — an id
already taken by the second built-in — so the claim, as stated, is false
at this input. -/
theorem C9_counterexample :
    lastOverlayGid (gnutls_session_ext_register [tB1, tR1] (initSession Entity.client [])
      "x" 1 ParseType.any none none false none none GNUTLS_EXT_FLAG_OVERRIDE_INTERNAL) =
      some 20 ∧ 20 ∈ [tB1, tR1].map HelloExtEntry.gid := by
  exact ⟨by decide, by decide⟩

theorem C9_id_allocation_witness :
    gnutls_ext_register [tGid31] "x" 50 ParseType.any none none false none none =
      Except.error GNUTLS_E_MEMORY_ERROR ∧
    gnutls_session_ext_register [tGid31] (initSession Entity.client []) "x" 50
      ParseType.any none none false none none 0 =
      Except.error GNUTLS_E_MEMORY_ERROR :=
  (C9_id_allocation [tGid31] (initSession Entity.client []) "x" 50 ParseType.any
    none none false none none 0).2.2 (by decide) (by decide) (by decide)

/-! ## C5 -/

theorem list_add_mark (s : Session) (p : HelloExtEntry) :
    (_gnutls_extension_list_add s p false).2 =
      { s with used_exts := s.used_exts ||| 1 <<< p.gid } := by
  simp [_gnutls_extension_list_add]

theorem skip_append (msg : Nat) (pt : ParseType) (p : HelloExtEntry) (s : Session)
    (hsend : hello_ext_send msg pt p s = (0, [], s)) :
    _gnutls_extv_append msg pt p s = Except.ok (none, s) := by
  simp only [_gnutls_extv_append, hsend]
  norm_num [GNUTLS_E_INT_RET_0]

theorem emit_step_walk (msg : Nat) (pt : ParseType) (p : HelloExtEntry)
    (ps : List HelloExtEntry) (s : Session) (opt : Option (Nat × Bytes)) (s0 : Session)
    (happ : _gnutls_extv_append msg pt p s = Except.ok (opt, s0)) :
    s0.entity = s.entity ∧
    emitWalk msg pt s.entity (p :: ps) s.used_exts =
      (match opt with
       | some tlv => tlv.1 :: emitWalk msg pt s0.entity ps s0.used_exts
       | none => emitWalk msg pt s0.entity ps s0.used_exts) := by
  cases hsf : p.send_func with
  | none =>
    have happ2 : _gnutls_extv_append msg pt p s = Except.ok (none, s) := by
      simp [_gnutls_extv_append, hello_ext_send, hsf, GNUTLS_E_INT_RET_0]
    rw [happ2] at happ
    cases happ
    exact ⟨rfl, by simp [emitWalk, hsf]⟩
  | some sr =>
    by_cases hA : pt ≠ ParseType.any ∧ p.parse_type ≠ pt
    · have happ2 : _gnutls_extv_append msg pt p s = Except.ok (none, s) := by
        simp [_gnutls_extv_append, hello_ext_send, hsf, hA, GNUTLS_E_INT_RET_0]
      rw [happ2] at happ
      cases happ
      exact ⟨rfl, by simp [emitWalk, hsf, hA]⟩
    · by_cases hB : msg &&& p.validity = 0
      · have happ2 : _gnutls_extv_append msg pt p s = Except.ok (none, s) := by
          simp [_gnutls_extv_append, hello_ext_send, hsf, hA, hB, GNUTLS_E_INT_RET_0]
        rw [happ2] at happ
        cases happ
        exact ⟨rfl, by simp [emitWalk, hsf, hA, hB]⟩
      · cases hent : s.entity with
        | server =>
          by_cases hbit : s.used_exts.testBit p.gid
          · have hchk : _gnutls_extension_list_check s p.gid = 0 := by
              simp [_gnutls_extension_list_check, hbit]
            by_cases hE : sr.2 < 0 ∧ sr.2 ≠ GNUTLS_E_INT_RET_0
            · have happ2 : _gnutls_extv_append msg pt p s = Except.error sr.2 := by
                simp [_gnutls_extv_append, hello_ext_send, hsf, hA, hB, hchk, hent, hE]
              rw [happ2] at happ
              cases happ
            · by_cases hK : sr.1.length > 0 ∨ sr.2 = GNUTLS_E_INT_RET_0
              · have happ2 : _gnutls_extv_append msg pt p s =
                    Except.ok (some (p.tls_id, sr.1), s) := by
                  simp [_gnutls_extv_append, hello_ext_send, hsf, hA, hB, hchk, hent,
                    hE, hK]
                rw [happ2] at happ
                cases happ
                exact ⟨hent, by simp [emitWalk, hsf, hA, hB, hent, hbit, hK]⟩
              · have happ2 : _gnutls_extv_append msg pt p s = Except.ok (none, s) := by
                  simp [_gnutls_extv_append, hello_ext_send, hsf, hA, hB, hchk, hent,
                    hE, hK]
                rw [happ2] at happ
                cases happ
                exact ⟨hent, by simp [emitWalk, hsf, hA, hB, hent, hbit, hK]⟩
          · have hchk : _gnutls_extension_list_check s p.gid =
                GNUTLS_E_UNSOLICITED_EXTENSION := by
              simp [_gnutls_extension_list_check, hbit]
            have happ2 : _gnutls_extv_append msg pt p s = Except.ok (none, s) := by
              simp [_gnutls_extv_append, hello_ext_send, hsf, hA, hB, hchk, hent,
                GNUTLS_E_UNSOLICITED_EXTENSION, GNUTLS_E_INT_RET_0]
            rw [happ2] at happ
            cases happ
            exact ⟨hent, by simp [emitWalk, hsf, hA, hB, hent, hbit]⟩
        | client =>
          by_cases hbit : s.used_exts.testBit p.gid
          · have hchk : _gnutls_extension_list_check s p.gid = 0 := by
              simp [_gnutls_extension_list_check, hbit]
            have happ2 : _gnutls_extv_append msg pt p s = Except.ok (none, s) := by
              simp [_gnutls_extv_append, hello_ext_send, hsf, hA, hB, hchk, hent,
                GNUTLS_E_INT_RET_0]
            rw [happ2] at happ
            cases happ
            exact ⟨hent, by simp [emitWalk, hsf, hA, hB, hent, hbit]⟩
          · have hchk : _gnutls_extension_list_check s p.gid =
                GNUTLS_E_UNSOLICITED_EXTENSION := by
              simp [_gnutls_extension_list_check, hbit]
            by_cases hE : sr.2 < 0 ∧ sr.2 ≠ GNUTLS_E_INT_RET_0
            · have happ2 : _gnutls_extv_append msg pt p s = Except.error sr.2 := by
                simp [_gnutls_extv_append, hello_ext_send, hsf, hA, hB, hchk, hent, hE,
                  GNUTLS_E_UNSOLICITED_EXTENSION]
              rw [happ2] at happ
              cases happ
            · by_cases hK : sr.1.length > 0 ∨ sr.2 = GNUTLS_E_INT_RET_0
              · have happ2 : _gnutls_extv_append msg pt p s =
                    Except.ok (some (p.tls_id, sr.1),
                      { s with used_exts := s.used_exts ||| 1 <<< p.gid }) := by
                  simp [_gnutls_extv_append, hello_ext_send, _gnutls_extension_list_add,
                    hsf, hA, hB, hchk, hent, hE, hK, GNUTLS_E_UNSOLICITED_EXTENSION]
                rw [happ2] at happ
                cases happ
                exact ⟨hent, by simp [emitWalk, hsf, hA, hB, hent, hbit, hK]⟩
              · have happ2 : _gnutls_extv_append msg pt p s = Except.ok (none, s) := by
                  simp [_gnutls_extv_append, hello_ext_send, hsf, hA, hB, hchk, hent,
                    hE, hK, GNUTLS_E_UNSOLICITED_EXTENSION]
                rw [happ2] at happ
                cases happ
                exact ⟨hent, by simp [emitWalk, hsf, hA, hB, hent, hbit, hK]⟩

theorem gen_loop_walk (msg : Nat) (pt : ParseType) :
    ∀ (l : List HelloExtEntry) (s : Session) (tlvs : List (Nat × Bytes)) (s1 : Session),
      gen_ext_loop msg pt l s = Except.ok (tlvs, s1) →
      tlvs.map Prod.fst = emitWalk msg pt s.entity l s.used_exts := by
  intro l
  induction l with
  | nil =>
    intro s tlvs s1 h
    simp only [gen_ext_loop] at h
    cases h
    simp [emitWalk]
  | cons p ps ih =>
    intro s tlvs s1 h
    simp only [gen_ext_loop] at h
    cases happ : _gnutls_extv_append msg pt p s with
    | error e => simp [happ] at h
    | ok pr =>
      obtain ⟨opt, s0⟩ := pr
      simp only [happ] at h
      cases hrec : gen_ext_loop msg pt ps s0 with
      | error e2 => simp [hrec] at h
      | ok pr2 =>
        obtain ⟨tlvs2, s2⟩ := pr2
        simp only [hrec] at h
        cases h
        obtain ⟨hent0, hwalk⟩ := emit_step_walk msg pt p ps s opt s0 happ
        have ihh := ih s0 tlvs2 _ hrec
        rw [hwalk]
        cases opt with
        | some tlv => simp [ihh]
        | none => simp [ihh]

/-- C5 (amended): for every successful emit run, the sequence of emitted
wire ids equals the walk of `overlay ++ built-ins` (overlay tier first,
each tier in registration order) filtered by send-present, parse class,
validity mask, the advertisement-bitset rule, AND the condition that the
send appended payload or returned the `EMIT_ZERO_LENGTH` sentinel — a
passing descriptor whose send appends nothing and returns 0 emits no TLV
(shown by `C5_counterexample` to refute the claim as stated, which omits
that last filter). -/
theorem C5_emit_order (ef : List HelloExtEntry) (msg : Nat) (pt : ParseType)
    (s : Session) (tlvs : List (Nat × Bytes)) (s1 : Session)
    (h : _gnutls_gen_extensions ef msg pt s = Except.ok (tlvs, s1)) :
    tlvs.map Prod.fst = emitWalk msg pt s.entity (s.rexts ++ ef) s.used_exts :=
  gen_loop_walk msg pt (s.rexts ++ ef) s tlvs s1 h

theorem C5_emit_order_witness :
    [((16 : Nat), [(1 : Nat)]), (16, [2])].map Prod.fst =
      emitWalk GNUTLS_EXT_FLAG_CLIENT_HELLO ParseType.any
        (initSession Entity.client [tOv16]).entity
        ((initSession Entity.client [tOv16]).rexts ++ [tBi16])
        (initSession Entity.client [tOv16]).used_exts :=
  C5_emit_order [tBi16] GNUTLS_EXT_FLAG_CLIENT_HELLO ParseType.any
    (initSession Entity.client [tOv16]) [(16, [1]), (16, [2])]
    { entity := Entity.client, rexts := [tOv16],
      used_exts := (0 ||| 1 <<< 20) ||| 1 <<< 3,
      ext_data := List.replicate MAX_EXT_TYPES emptySlot }
    rfl

/-- C5 counterexample: a built-in passing the send-present, parse-class,
validity and bitset filters whose send appends nothing and returns 0 (not
the sentinel) is dropped by the code, so the emitted sequence (empty) is
not the claim's filtered walk (`[21]`): the claim, as stated, is false at
this input. -/
theorem C5_counterexample :
    genWireTLVs [tBiEmpty] GNUTLS_EXT_FLAG_CLIENT_HELLO ParseType.any
      (initSession Entity.client []) = some [] ∧
    claimEmitSeq GNUTLS_EXT_FLAG_CLIENT_HELLO ParseType.any Entity.client
      ((initSession Entity.client []).rexts ++ [tBiEmpty]) 0 = [21] := by
  exact ⟨by decide, by decide⟩

/-! ## C8 -/

theorem pack_ids_filter (ef : List HelloExtEntry) (s : Session) :
    ∀ l : List Nat, (∀ i ∈ l.filter (packSelect ef s), 0 ≤ packRet ef s i) →
      pack_ids ef s l = Except.ok
        ((l.filter (packSelect ef s)).foldr (fun i acc => packRecord ef s i ++ acc) [],
         (l.filter (packSelect ef s)).length) := by
  intro l
  induction l with
  | nil => intro _; rfl
  | cons i is ih =>
    intro h
    by_cases hbit : s.used_exts.testBit i
    · cases hptr : _gnutls_ext_ptr ef s i ParseType.any with
      | none =>
        have hsel : packSelect ef s i = false := by simp [packSelect, hptr]
        rw [List.filter_cons_of_neg (by simp [hsel])] at h ⊢
        simp only [pack_ids, if_pos hbit, hptr]
        exact ih h
      | some e =>
        have hgid : e.gid = i := ext_ptr_gid hptr
        cases hdata : _gnutls_ext_get_session_data s i with
        | error err =>
          have hsel : packSelect ef s i = false := by simp [packSelect, hptr, hdata]
          have hpe : pack_extension s e = Except.ok ([], 0) := by
            simp [pack_extension, hgid, hdata]
          rw [List.filter_cons_of_neg (by simp [hsel])] at h ⊢
          simp only [pack_ids, if_pos hbit, hptr, hpe, ih h]
          simp
        | ok d =>
          cases hpf : e.pack_func with
          | none =>
            have hsel : packSelect ef s i = false := by
              simp [packSelect, hptr, hdata, hpf]
            have hpe : pack_extension s e = Except.ok ([], 0) := by
              simp [pack_extension, hgid, hdata, hpf]
            rw [List.filter_cons_of_neg (by simp [hsel])] at h ⊢
            simp only [pack_ids, if_pos hbit, hptr, hpe, ih h]
            simp
          | some pack =>
            have hsel : packSelect ef s i = true := by
              simp [packSelect, hptr, hdata, hpf, hbit]
            rw [List.filter_cons_of_pos (by simp [hsel])] at h ⊢
            have hret : 0 ≤ packRet ef s i := h i (List.mem_cons_self i _)
            have hretv : packRet ef s i = (pack d).2 := by
              simp [packRet, hptr, hdata, hpf]
            rw [hretv] at hret
            have hpe : pack_extension s e =
                Except.ok (u32be i ++ u32be (pack d).1.length ++ (pack d).1, 1) := by
              simp only [pack_extension, hgid, hdata, hpf]
              rw [if_neg (by omega)]
            have hrec : packRecord ef s i =
                u32be i ++ u32be (pack d).1.length ++ (pack d).1 := by
              simp [packRecord, packBody, hptr, hdata, hpf]
            simp only [pack_ids, if_pos hbit, hptr, hpe,
              ih (fun j hj => h j (List.mem_cons_of_mem i hj))]
            simp [hrec, Nat.add_comm]
    · have hsel : packSelect ef s i = false := by simp [packSelect, hbit]
      rw [List.filter_cons_of_neg (by simp [hsel])] at h ⊢
      simp only [pack_ids, if_neg hbit]
      exact ih h

/-- C8 (amended): the pack walk iterates internal ids
`0..GNUTLS_EXTENSION_MAX_VALUE` in ascending order and, for every id set in
the advertisement bitset whose descriptor is found, which has a `pack` op
AND whose live private data is present in the state table, emits the record
`internal_id: u32 | length: u32 | pack output`, the whole run prefixed with
the 32-bit count of records; a pack writing zero bytes is still counted and
emitted.  (The claim as stated omits the live-data condition and is refuted
by `C8_counterexample`.) -/
theorem C8_pack_format (ef : List HelloExtEntry) (s : Session)
    (h : ∀ i ∈ packIds ef s, 0 ≤ packRet ef s i) :
    _gnutls_ext_pack ef s = Except.ok
      (u32be (packIds ef s).length ++
        (packIds ef s).foldr (fun i acc => packRecord ef s i ++ acc) []) := by
  unfold _gnutls_ext_pack
  unfold packIds at h
  rw [pack_ids_filter ef s _ h]
  rfl

theorem C8_pack_format_witness :
    _gnutls_ext_pack [tDescA, tDescB] tSessPack2 = Except.ok
      (u32be (packIds [tDescA, tDescB] tSessPack2).length ++
        (packIds [tDescA, tDescB] tSessPack2).foldr
          (fun i acc => packRecord [tDescA, tDescB] tSessPack2 i ++ acc) []) :=
  C8_pack_format [tDescA, tDescB] tSessPack2 (by decide)

/-- C8 counterexample: a session advertising internal id 1 whose descriptor
has a `pack` op but whose live data was never installed packs NOTHING (the
blob is the bare count 0), while the claim as stated demands a record for
id 1 (its claimed id set is `[1]`): `pack_extension` emits only when
`_gnutls_ext_get_session_data` succeeds. -/
theorem C8_counterexample :
    _gnutls_ext_pack [tDescA] tSessAdvNoData = Except.ok (u32be 0) ∧
    claimPackIdsC8 [tDescA] tSessAdvNoData = [1] := by
  exact ⟨rfl, by decide⟩

/-! ## C1 -/

theorem popU32_u32be (n : Nat) (rest : Bytes) (h : n < 2 ^ 32) :
    popU32 (u32be n ++ rest) = Except.ok (n, rest) := by
  simp only [u32be, List.cons_append, List.nil_append, popU32]
  have harith : ((n / 2 ^ 24 % 256 * 256 + n / 2 ^ 16 % 256) * 256 + n / 2 ^ 8 % 256) *
      256 + n % 256 = n := by
    have h24 : (2 : Nat) ^ 24 = 16777216 := by norm_num
    have h16 : (2 : Nat) ^ 16 = 65536 := by norm_num
    have h8 : (2 : Nat) ^ 8 = 256 := by norm_num
    have h32 : (2 : Nat) ^ 32 = 4294967296 := by norm_num
    rw [h24, h16, h8]
    rw [h32] at h
    omega
  rw [harith]

theorem set_resumed_loop_skip_front (ext : Option HelloExtEntry) (i : Nat) (v : Priv) :
    ∀ (done rest : List ExtDataSlot),
      (∀ sl ∈ done, sl.resumed_set = true ∧ sl.id ≠ i) →
      set_resumed_data_loop ext i v (done ++ rest) =
        (set_resumed_data_loop ext i v rest).map (fun pr => (done ++ pr.1, pr.2)) := by
  intro done
  induction done with
  | nil =>
    intro rest _
    simp only [List.nil_append]
    cases set_resumed_data_loop ext i v rest <;> simp
  | cons sl done' ih =>
    intro rest hd
    have hsl := hd sl (List.mem_cons_self sl done')
    simp only [List.cons_append, set_resumed_data_loop, List.append_eq]
    rw [if_neg (by
      rintro (hc | hc)
      · exact hsl.2 hc
      · rw [hsl.1] at hc; cases hc.1)]
    rw [ih rest fun x hx => hd x (List.mem_cons_of_mem sl hx)]
    cases set_resumed_data_loop ext i v rest <;> simp

theorem set_resumed_loop_empty (ext : Option HelloExtEntry) (i : Nat) (v : Priv)
    (rest : List ExtDataSlot) :
    set_resumed_data_loop ext i v (emptySlot :: rest) =
      some (mkResumedSlot i v :: rest, []) := by
  simp only [set_resumed_data_loop]
  rw [if_pos (Or.inr ⟨rfl, rfl⟩)]
  rfl

theorem set_resumed_fresh (ef : List HelloExtEntry) (s : Session) (i : Nat) (v : Priv)
    (done : List ExtDataSlot) (m : Nat)
    (htbl : s.ext_data = done ++ List.replicate (m + 1) emptySlot)
    (hdone : ∀ sl ∈ done, sl.resumed_set = true ∧ sl.id ≠ i) :
    (_gnutls_ext_set_resumed_session_data ef s i v).1 =
      { s with ext_data := (done ++ [mkResumedSlot i v]) ++ List.replicate m emptySlot } := by
  simp only [_gnutls_ext_set_resumed_session_data, htbl, List.replicate_succ]
  rw [set_resumed_loop_skip_front _ i v done (emptySlot :: List.replicate m emptySlot) hdone]
  rw [set_resumed_loop_empty]
  simp

theorem find_resumed_installed (uOf : Nat → Priv) :
    ∀ (ids : List Nat) (tail : List ExtDataSlot),
      (∀ sl ∈ tail, sl.resumed_set = false) →
      ∀ j, ((ids.map fun i => mkResumedSlot i (uOf i)) ++ tail).find?
          (fun sl => sl.resumed_set && sl.id == j) =
        if j ∈ ids then some (mkResumedSlot j (uOf j)) else none := by
  intro ids
  induction ids with
  | nil =>
    intro tail htail j
    simp only [List.map_nil, List.nil_append]
    rw [if_neg (List.not_mem_nil j)]
    rw [List.find?_eq_none]
    intro sl hsl
    simp [htail sl hsl]
  | cons a ids' ih =>
    intro tail htail j
    simp only [List.map_cons, List.cons_append, List.find?, List.append_eq]
    by_cases hj : a = j
    · rw [hj]
      simp [mkResumedSlot, List.mem_cons]
    · have hpa : ((mkResumedSlot a (uOf a)).resumed_set &&
          ((mkResumedSlot a (uOf a)).id == j)) = false := by
        simp [mkResumedSlot, hj]
      rw [hpa]
      rw [ih tail htail j]
      by_cases hmem : j ∈ ids'
      · rw [if_pos hmem, if_pos (List.mem_cons_of_mem a hmem)]
      · rw [if_neg hmem, if_neg (by
          intro hc
          rcases List.mem_cons.mp hc with hc | hc
          · exact hj hc.symm
          · exact hmem hc)]

theorem unpack_loop_install (ef : List HelloExtEntry) (bodyOf : Nat → Bytes)
    (uOf : Nat → Priv) :
    ∀ (ids : List Nat) (sess : Session) (done : List ExtDataSlot) (m : Nat),
      sess.ext_data = done ++ List.replicate m emptySlot →
      ids.length ≤ m →
      ids.Nodup →
      (∀ sl ∈ done, sl.resumed_set = true ∧ sl.id ∉ ids) →
      (∀ i ∈ ids, i < 2 ^ 32 ∧ (bodyOf i).length < 2 ^ 32 ∧
        ∃ e uf, _gnutls_ext_ptr ef sess i ParseType.any = some e ∧
          e.unpack_func = some uf ∧
          ∀ rest2, uf (bodyOf i ++ rest2) = Except.ok (uOf i, (bodyOf i).length)) →
      ∃ sfin, unpack_loop ef ids.length sess
          (ids.foldr (fun i acc =>
            (u32be i ++ u32be (bodyOf i).length ++ bodyOf i) ++ acc) []) =
          Except.ok (sfin, []) ∧
        sfin.rexts = sess.rexts ∧ sfin.entity = sess.entity ∧
        sfin.ext_data = (done ++ ids.map fun i => mkResumedSlot i (uOf i)) ++
          List.replicate (m - ids.length) emptySlot := by
  intro ids
  induction ids with
  | nil =>
    intro sess done m htbl _ _ _ _
    refine ⟨sess, rfl, rfl, rfl, ?_⟩
    simpa using htbl
  | cons i ids' ih =>
    intro sess done m htbl hm hnd hdone hops
    obtain ⟨hi32, hblen, e, uf, hptr, huf, hround⟩ := hops i (List.mem_cons_self i ids')
    cases m with
    | zero => simp at hm
    | succ m' =>
      have hm' : ids'.length ≤ m' := by simpa using hm
      have hset := set_resumed_fresh ef sess i (uOf i) done m' htbl
        (fun sl hsl => ⟨(hdone sl hsl).1,
          fun hc => (hdone sl hsl).2 (hc ▸ List.mem_cons_self i ids')⟩)
      set sess' := (_gnutls_ext_set_resumed_session_data ef sess i (uOf i)).1 with hsess'
      have hrx : sess'.rexts = sess.rexts := by rw [hset]
      have hent : sess'.entity = sess.entity := by rw [hset]
      have htbl' : sess'.ext_data =
          (done ++ [mkResumedSlot i (uOf i)]) ++ List.replicate m' emptySlot := by
        rw [hset]
      obtain ⟨sfin, hloop, hrx2, hent2, htblf⟩ := ih sess'
        (done ++ [mkResumedSlot i (uOf i)]) m' htbl' hm' hnd.of_cons
        (by
          intro sl hsl
          rcases List.mem_append.mp hsl with hsl | hsl
          · exact ⟨(hdone sl hsl).1,
              fun hc => (hdone sl hsl).2 (List.mem_cons_of_mem i hc)⟩
          · cases List.mem_singleton.mp hsl
            refine ⟨rfl, ?_⟩
            simp only [mkResumedSlot]
            simpa using (List.nodup_cons.mp hnd).1)
        (by
          intro j hj
          obtain ⟨hj32, hjlen, e2, uf2, hptr2, huf2, hround2⟩ :=
            hops j (List.mem_cons_of_mem i hj)
          exact ⟨hj32, hjlen, e2, uf2, by rw [ext_ptr_rexts_eq hrx]; exact hptr2,
            huf2, hround2⟩)
      refine ⟨sfin, ?_, by rw [hrx2, hrx], by rw [hent2, hent], ?_⟩
      · simp only [List.length_cons, List.foldr_cons, unpack_loop]
        rw [List.append_assoc (u32be i ++ u32be (bodyOf i).length), List.append_assoc (u32be i)]
        have hp1 := popU32_u32be i (u32be (bodyOf i).length ++ (bodyOf i ++
          ids'.foldr (fun i acc =>
            (u32be i ++ u32be (bodyOf i).length ++ bodyOf i) ++ acc) [])) hi32
        simp only [hp1]
        have hp2 := popU32_u32be (bodyOf i).length (bodyOf i ++
          ids'.foldr (fun i acc =>
            (u32be i ++ u32be (bodyOf i).length ++ bodyOf i) ++ acc) []) hblen
        simp only [hp2]
        simp only [hptr, huf]
        simp only [hround (ids'.foldr (fun i acc =>
          (u32be i ++ u32be (bodyOf i).length ++ bodyOf i) ++ acc) [])]
        rw [if_neg (fun hc => hc rfl)]
        rw [List.drop_left]
        rw [← hsess']
        exact hloop
      · rw [htblf]
        simp only [List.map_cons]
        have hmarith : m' - ids'.length = (m' + 1) - (ids'.length + 1) := by omega
        rw [hmarith]
        simp [List.append_assoc]

/-- C1 (amended): for a session whose advertisement bitset selects the ids
of `packIds` (advertised, descriptor found, `pack` present, live data
present), if every such descriptor's pack succeeds and also has an `unpack`
that consumes exactly the packed body and yields a value, then pack
followed by unpack into a fresh session with the same catalog succeeds, and
the fresh session's resumed table holds exactly those ids, each with the
value its `unpack` produced from its `pack` output.  (The claim as stated —
success for every session, with the table being the advertised ids having
pack AND unpack — is refuted by `C1_counterexample`: an advertised
descriptor with `pack` but no `unpack` is packed, and unpack then fails
with `PARSING_ERROR` instead of succeeding.) -/
theorem C1_resumption_roundtrip (ef : List HelloExtEntry) (s : Session) (uOf : Nat → Priv)
    (hpack : ∀ i ∈ packIds ef s, 0 ≤ packRet ef s i)
    (hlen : ∀ i ∈ packIds ef s, (packBody ef s i).length < 2 ^ 32)
    (hunp : ∀ i ∈ packIds ef s, ∃ e uf,
      _gnutls_ext_ptr ef s i ParseType.any = some e ∧ e.unpack_func = some uf ∧
      ∀ rest, uf (packBody ef s i ++ rest) =
        Except.ok (uOf i, (packBody ef s i).length)) :
    ∃ blob s2, _gnutls_ext_pack ef s = Except.ok blob ∧
      _gnutls_ext_unpack ef (freshSession s) blob = Except.ok s2 ∧
      (∀ i ∈ packIds ef s,
        _gnutls_ext_get_resumed_session_data s2 i = Except.ok (uOf i)) ∧
      (∀ j, j ∉ packIds ef s →
        _gnutls_ext_get_resumed_session_data s2 j =
          Except.error GNUTLS_E_INVALID_REQUEST) := by
  have h32 : (2 : Nat) ^ 32 = 4294967296 := by norm_num
  have hpackeq : _gnutls_ext_pack ef s = Except.ok
      (u32be (packIds ef s).length ++
        (packIds ef s).foldr (fun i acc => packRecord ef s i ++ acc) []) := by
    unfold _gnutls_ext_pack
    unfold packIds at hpack
    rw [pack_ids_filter ef s _ hpack]
    rfl
  have hlen32 : (packIds ef s).length ≤ 32 := by
    have h1 : (packIds ef s).length ≤
        (List.range (GNUTLS_EXTENSION_MAX_VALUE + 1)).length :=
      List.length_filter_le _ _
    rw [List.length_range] at h1
    exact h1
  have hnlt : (packIds ef s).length < 2 ^ 32 := by omega
  have hidslt : ∀ i ∈ packIds ef s, i < 2 ^ 32 := by
    intro i hi
    have h1 : i ∈ List.range (GNUTLS_EXTENSION_MAX_VALUE + 1) :=
      List.mem_of_mem_filter hi
    have h2 := List.mem_range.mp h1
    have h3 : GNUTLS_EXTENSION_MAX_VALUE = 31 := rfl
    omega
  have hnd : (packIds ef s).Nodup :=
    List.Nodup.filter _ (List.nodup_range _)
  have hfresh_tbl : (freshSession s).ext_data =
      [] ++ List.replicate MAX_EXT_TYPES emptySlot := by
    simp [freshSession, initSession]
  obtain ⟨sfin, hloop, hrx, hent, htblf⟩ := unpack_loop_install ef (packBody ef s) uOf
    (packIds ef s) (freshSession s) [] MAX_EXT_TYPES hfresh_tbl
    (by
      have hM : MAX_EXT_TYPES = 64 := rfl
      omega)
    hnd
    (by intro sl hsl; cases hsl)
    (by
      intro i hi
      obtain ⟨e, uf, hptr, huf, hr⟩ := hunp i hi
      refine ⟨hidslt i hi, hlen i hi, e, uf, ?_, huf, hr⟩
      rw [ext_ptr_rexts_eq (rfl : (freshSession s).rexts = s.rexts)]
      exact hptr)
  have hunpeq : _gnutls_ext_unpack ef (freshSession s)
      (u32be (packIds ef s).length ++
        (packIds ef s).foldr (fun i acc => packRecord ef s i ++ acc) []) =
      Except.ok sfin := by
    unfold _gnutls_ext_unpack
    have hp := popU32_u32be (packIds ef s).length
      ((packIds ef s).foldr (fun i acc => packRecord ef s i ++ acc) []) hnlt
    simp only [hp]
    simp only [packRecord]
    simp only [hloop]
  have htblf2 : sfin.ext_data =
      ((packIds ef s).map fun i => mkResumedSlot i (uOf i)) ++
        List.replicate (MAX_EXT_TYPES - (packIds ef s).length) emptySlot := by
    simpa using htblf
  have hfound := find_resumed_installed uOf (packIds ef s)
    (List.replicate (MAX_EXT_TYPES - (packIds ef s).length) emptySlot)
    (by
      intro sl hsl
      rw [List.eq_of_mem_replicate hsl]
      rfl)
  refine ⟨_, sfin, hpackeq, hunpeq, ?_, ?_⟩
  · intro i hi
    unfold _gnutls_ext_get_resumed_session_data
    rw [htblf2, hfound i, if_pos hi]
    simp [mkResumedSlot]
  · intro j hj
    unfold _gnutls_ext_get_resumed_session_data
    rw [htblf2, hfound j, if_neg hj]

/-- C1 counterexample: catalog with one descriptor (internal id 1) that has
a `pack` op but NO `unpack` op, session advertising id 1 with live data
installed: pack succeeds (blob = count 1, record for id 1 of length 0), but
unpack of that blob into a fresh session fails with `PARSING_ERROR` — the
claim's "running pack and then unpack … succeeds" is false at this input. -/
theorem C1_counterexample :
    _gnutls_ext_pack [tPackNoUnpack] tSessPack1 =
      Except.ok [0, 0, 0, 1, 0, 0, 0, 1, 0, 0, 0, 0] ∧
    _gnutls_ext_unpack [tPackNoUnpack] (freshSession tSessPack1)
      [0, 0, 0, 1, 0, 0, 0, 1, 0, 0, 0, 0] = Except.error GNUTLS_E_PARSING_ERROR :=
  ⟨rfl, rfl⟩

theorem C1_resumption_roundtrip_witness :
    ∃ blob s2, _gnutls_ext_pack [tDescA] tSessPack2 = Except.ok blob ∧
      _gnutls_ext_unpack [tDescA] (freshSession tSessPack2) blob = Except.ok s2 ∧
      (∀ i ∈ packIds [tDescA] tSessPack2,
        _gnutls_ext_get_resumed_session_data s2 i = Except.ok ((fun _ => 42) i)) ∧
      (∀ j, j ∉ packIds [tDescA] tSessPack2 →
        _gnutls_ext_get_resumed_session_data s2 j =
          Except.error GNUTLS_E_INVALID_REQUEST) :=
  C1_resumption_roundtrip [tDescA] tSessPack2 (fun _ => 42) (by decide) (by decide)
    (by
      intro i hi
      have hids : packIds [tDescA] tSessPack2 = [1] := by decide
      rw [hids] at hi
      cases List.mem_singleton.mp hi
      exact ⟨tDescA, _, rfl, rfl, fun rest => rfl⟩)

end GnuTLS
